import Mathlib

/-!
# Verification of the stack0 Go SDK against its specification

Shallow embedding of the claim-relevant parts of the `stack0/sdk-go`
repository:

* the common error types of package `types` (`ErrorResponse`, `APIError`,
  `TimeoutError`) and the distinct dynamic error types that the SDK returns
  (`SdkError` below);
* the bounded async polling helpers `ExtractAndWait` / `BatchAndWait`
  (package `extraction`, `client.go`) and `CaptureAndWait` / `BatchAndWait`
  (package `screenshots`, `types.go`);
* the client-side CDN transform URL builder (`GetTransformURL`,
  `buildTransformQuery`, `getNearestWidth`, package `cdn`);
* the query-string building of the `List` methods;
* the `doRequest` error mapping of package `client`.

Modelling conventions:

* Go strings are `String`; string-typed enums (`ExtractionStatus`,
  `BatchJobStatus`, ...) are `String` abbreviations with the same constants.
* Go `time.Duration` is `Int`, in nanoseconds (`timeSecond = 1e9`), as in Go.
* Go pointers used as optional fields are `Option`.
* Network calls are modelled by their outcomes: the single start call of a
  poller is an `Except APIError _` value, and the sequence of get-status
  calls is a function `Nat → Except APIError _` giving the outcome of the
  k-th get call.  Context cancellation is a function `Nat → Bool` telling
  whether the context is done during the k-th wait.  A get call is assumed
  to take no time, and each wait advances time by exactly the poll interval,
  so the loop condition `time.Since(startTime) < timeout` at iteration `k`
  reads `k * pollInterval < timeout`.
* The polling loops are written with an explicit fuel argument; the wrapper
  passes `timeout / pollInterval + 2` fuel which is proved never to run out
  while the loop condition still holds (the effective poll interval is
  always ≥ 1ns).  An exhausted fuel yields the same timeout result as a
  false loop condition, so the fuel is invisible.
-/

namespace Stack0

/-! ## Package `types`: common types (types/common.go) -/

/-- `types.ErrorResponse`: the error payload `{message, code}`. -/
structure ErrorResponse where
  message : String
  code : String
deriving DecidableEq, Repr

/-- `types.APIError`: error for any HTTP status ≥ 400. -/
structure APIError where
  statusCode : Nat
  code : String
  message : String
  response : ErrorResponse
deriving DecidableEq, Repr

/-- The distinct dynamic error types a poller can return to its caller:
`*types.APIError` (from the start or get call), a plain `errors.New` error
(single-item domain failure), `*types.TimeoutError`, and the context's
cancellation error `ctx.Err()`.  In Go these are four distinct dynamic
types, modelled here as four constructors. -/
inductive SdkError where
  /-- a `*types.APIError` returned by the transport -/
  | apiError (e : APIError)
  /-- an `errors.New(msg)` error (domain failure of a single-item poller) -/
  | genericError (msg : String)
  /-- a `*types.TimeoutError` built by `types.NewTimeoutError(msg)` -/
  | timeoutError (msg : String)
  /-- the caller's cancellation error `ctx.Err()` -/
  | ctxCanceled
deriving DecidableEq, Repr

/-- The `(value, error)` pair a poller returns. -/
inductive PollFinal (R : Type) where
  | ok (r : R)
  | err (e : SdkError)
deriving DecidableEq, Repr

/-- Result of a poller run together with the number of get-status calls
that were issued during the run. -/
structure PollRun (R : Type) where
  outcome : PollFinal R
  getCalls : Nat
deriving DecidableEq, Repr

/-- `time.Second` in nanoseconds (Go `time.Duration` units). -/
def timeSecond : Int := 1000000000

/-- `types.BatchJobStatus` and its constants. -/
abbrev BatchJobStatus := String

def BatchJobStatusPending : BatchJobStatus := "pending"
def BatchJobStatusProcessing : BatchJobStatus := "processing"
def BatchJobStatusCompleted : BatchJobStatus := "completed"
def BatchJobStatusFailed : BatchJobStatus := "failed"
def BatchJobStatusCancelled : BatchJobStatus := "cancelled"

/-! ## Package `extraction`: types (claim-relevant fields only) -/

abbrev ExtractionStatus := String

def ExtractionStatusPending : ExtractionStatus := "pending"
def ExtractionStatusProcessing : ExtractionStatus := "processing"
def ExtractionStatusCompleted : ExtractionStatus := "completed"
def ExtractionStatusFailed : ExtractionStatus := "failed"

/-- `extraction.ExtractionResult` (the fields the poller reads; the Go
struct has further payload fields not used by any claim). -/
structure ExtractionResult where
  id : String
  url : String
  status : ExtractionStatus
  markdown : Option String := none
  error : Option String := none
deriving DecidableEq, Repr

/-- `extraction.CreateExtractionResponse`. -/
structure CreateExtractionResponse where
  id : String
  status : ExtractionStatus
deriving DecidableEq, Repr

/-- `extraction.CreateBatchResponse` (shared shape with screenshots). -/
structure CreateBatchResponse where
  id : String
  status : BatchJobStatus
  totalURLs : Int
deriving DecidableEq, Repr

/-- `extraction.BatchExtractionJob` (claim-relevant fields). -/
structure BatchExtractionJob where
  id : String
  status : BatchJobStatus
  totalURLs : Int := 0
  processedURLs : Int := 0
  successfulURLs : Int := 0
  failedURLs : Int := 0
deriving DecidableEq, Repr

/-- `extraction.ExtractAndWaitOptions` (`time.Duration` fields). -/
structure ExtractAndWaitOptions where
  pollInterval : Int
  timeout : Int
deriving DecidableEq, Repr

/-! ## The polling helpers

Each Go helper starts with

```
pollInterval := <default>
timeout := <default>
if opts != nil {
    if opts.PollInterval > 0 { pollInterval = opts.PollInterval }
    if opts.Timeout > 0 { timeout = opts.Timeout }
}
```

modelled by the `...PollInterval` / `...Timeout` functions below. -/

/-- Effective poll interval of `ExtractAndWait` (default `1 * time.Second`). -/
def extractWaitPollInterval (opts : Option ExtractAndWaitOptions) : Int :=
  match opts with
  | some o => if o.pollInterval > 0 then o.pollInterval else 1 * timeSecond
  | none => 1 * timeSecond

/-- Effective timeout of `ExtractAndWait` (default `60 * time.Second`). -/
def extractWaitTimeout (opts : Option ExtractAndWaitOptions) : Int :=
  match opts with
  | some o => if o.timeout > 0 then o.timeout else 60 * timeSecond
  | none => 60 * timeSecond

/-- Effective poll interval of extraction `BatchAndWait`
(default `2 * time.Second`). -/
def extractBatchPollInterval (opts : Option ExtractAndWaitOptions) : Int :=
  match opts with
  | some o => if o.pollInterval > 0 then o.pollInterval else 2 * timeSecond
  | none => 2 * timeSecond

/-- Effective timeout of extraction `BatchAndWait`
(default `300 * time.Second`). -/
def extractBatchTimeout (opts : Option ExtractAndWaitOptions) : Int :=
  match opts with
  | some o => if o.timeout > 0 then o.timeout else 300 * timeSecond
  | none => 300 * timeSecond

/-- Fuel bound for the polling loops; see the header comment. -/
def pollFuel (pollInterval timeout : Int) : Nat :=
  timeout.toNat / pollInterval.toNat + 2

/-- The polling loop of `extraction.ExtractAndWait`
(extraction/client.go lines 145–172). `k` counts completed get calls. -/
def extractPollLoop (get : Nat → Except APIError ExtractionResult)
    (ctxDone : Nat → Bool) (pollInterval timeout : Int) :
    Nat → Nat → PollRun ExtractionResult
  | 0, k => ⟨.err (.timeoutError "Extraction timed out"), k⟩
  | fuel + 1, k =>
    -- for time.Since(startTime) < timeout
    if (k : Int) * pollInterval < timeout then
      match get k with
      | .error e => ⟨.err (.apiError e), k + 1⟩
      | .ok extraction =>
        if extraction.status = ExtractionStatusCompleted ∨
            extraction.status = ExtractionStatusFailed then
          if extraction.status = ExtractionStatusFailed then
            ⟨.err (.genericError (extraction.error.getD "Extraction failed")), k + 1⟩
          else
            ⟨.ok extraction, k + 1⟩
        else if ctxDone k then
          ⟨.err .ctxCanceled, k + 1⟩
        else
          extractPollLoop get ctxDone pollInterval timeout fuel (k + 1)
    else
      ⟨.err (.timeoutError "Extraction timed out"), k⟩

/-- `extraction.ExtractAndWait` (extraction/client.go lines 128–175). -/
def ExtractAndWait (start : Except APIError CreateExtractionResponse)
    (get : Nat → Except APIError ExtractionResult) (ctxDone : Nat → Bool)
    (opts : Option ExtractAndWaitOptions) : PollRun ExtractionResult :=
  let pollInterval := extractWaitPollInterval opts
  let timeout := extractWaitTimeout opts
  match start with
  | .error e => ⟨.err (.apiError e), 0⟩
  | .ok _resp =>
    extractPollLoop get ctxDone pollInterval timeout (pollFuel pollInterval timeout) 0

/-- The polling loop of `extraction.BatchAndWait`
(extraction/client.go lines 282–302). -/
def extractBatchPollLoop (get : Nat → Except APIError BatchExtractionJob)
    (ctxDone : Nat → Bool) (pollInterval timeout : Int) :
    Nat → Nat → PollRun BatchExtractionJob
  | 0, k => ⟨.err (.timeoutError "Batch job timed out"), k⟩
  | fuel + 1, k =>
    if (k : Int) * pollInterval < timeout then
      match get k with
      | .error e => ⟨.err (.apiError e), k + 1⟩
      | .ok job =>
        if job.status = BatchJobStatusCompleted ∨ job.status = BatchJobStatusFailed ∨
            job.status = BatchJobStatusCancelled then
          ⟨.ok job, k + 1⟩
        else if ctxDone k then
          ⟨.err .ctxCanceled, k + 1⟩
        else
          extractBatchPollLoop get ctxDone pollInterval timeout fuel (k + 1)
    else
      ⟨.err (.timeoutError "Batch job timed out"), k⟩

/-- `extraction.BatchAndWait` (extraction/client.go lines 265–305). -/
def ExtractionBatchAndWait (start : Except APIError CreateBatchResponse)
    (get : Nat → Except APIError BatchExtractionJob) (ctxDone : Nat → Bool)
    (opts : Option ExtractAndWaitOptions) : PollRun BatchExtractionJob :=
  let pollInterval := extractBatchPollInterval opts
  let timeout := extractBatchTimeout opts
  match start with
  | .error e => ⟨.err (.apiError e), 0⟩
  | .ok _resp =>
    extractBatchPollLoop get ctxDone pollInterval timeout (pollFuel pollInterval timeout) 0

/-! ## Package `screenshots`: types and pollers (claim-relevant fields) -/

abbrev ScreenshotStatus := String

def ScreenshotStatusPending : ScreenshotStatus := "pending"
def ScreenshotStatusProcessing : ScreenshotStatus := "processing"
def ScreenshotStatusCompleted : ScreenshotStatus := "completed"
def ScreenshotStatusFailed : ScreenshotStatus := "failed"

/-- `screenshots.Screenshot` (the fields the poller reads). -/
structure Screenshot where
  id : String
  url : String
  status : ScreenshotStatus
  imageURL : Option String := none
  error : Option String := none
deriving DecidableEq, Repr

/-- `screenshots.CreateScreenshotResponse`. -/
structure CreateScreenshotResponse where
  id : String
  status : ScreenshotStatus
deriving DecidableEq, Repr

/-- `screenshots.BatchScreenshotJob` (claim-relevant fields). -/
structure BatchScreenshotJob where
  id : String
  status : BatchJobStatus
  totalURLs : Int := 0
  processedURLs : Int := 0
  successfulURLs : Int := 0
  failedURLs : Int := 0
deriving DecidableEq, Repr

/-- `screenshots.CaptureAndWaitOptions`. -/
structure CaptureAndWaitOptions where
  pollInterval : Int
  timeout : Int
deriving DecidableEq, Repr

/-- Effective poll interval of `CaptureAndWait` (default `1 * time.Second`). -/
def captureWaitPollInterval (opts : Option CaptureAndWaitOptions) : Int :=
  match opts with
  | some o => if o.pollInterval > 0 then o.pollInterval else 1 * timeSecond
  | none => 1 * timeSecond

/-- Effective timeout of `CaptureAndWait` (default `60 * time.Second`). -/
def captureWaitTimeout (opts : Option CaptureAndWaitOptions) : Int :=
  match opts with
  | some o => if o.timeout > 0 then o.timeout else 60 * timeSecond
  | none => 60 * timeSecond

/-- Effective poll interval of screenshots `BatchAndWait`
(default `2 * time.Second`). -/
def captureBatchPollInterval (opts : Option CaptureAndWaitOptions) : Int :=
  match opts with
  | some o => if o.pollInterval > 0 then o.pollInterval else 2 * timeSecond
  | none => 2 * timeSecond

/-- Effective timeout of screenshots `BatchAndWait`
(default `300 * time.Second`). -/
def captureBatchTimeout (opts : Option CaptureAndWaitOptions) : Int :=
  match opts with
  | some o => if o.timeout > 0 then o.timeout else 300 * timeSecond
  | none => 300 * timeSecond

/-- The polling loop of `screenshots.CaptureAndWait`
(screenshots/types.go lines 473–500). -/
def capturePollLoop (get : Nat → Except APIError Screenshot)
    (ctxDone : Nat → Bool) (pollInterval timeout : Int) :
    Nat → Nat → PollRun Screenshot
  | 0, k => ⟨.err (.timeoutError "Screenshot timed out"), k⟩
  | fuel + 1, k =>
    if (k : Int) * pollInterval < timeout then
      match get k with
      | .error e => ⟨.err (.apiError e), k + 1⟩
      | .ok screenshot =>
        if screenshot.status = ScreenshotStatusCompleted ∨
            screenshot.status = ScreenshotStatusFailed then
          if screenshot.status = ScreenshotStatusFailed then
            ⟨.err (.genericError (screenshot.error.getD "Screenshot failed")), k + 1⟩
          else
            ⟨.ok screenshot, k + 1⟩
        else if ctxDone k then
          ⟨.err .ctxCanceled, k + 1⟩
        else
          capturePollLoop get ctxDone pollInterval timeout fuel (k + 1)
    else
      ⟨.err (.timeoutError "Screenshot timed out"), k⟩

/-- `screenshots.CaptureAndWait` (screenshots/types.go lines 456–503). -/
def CaptureAndWait (start : Except APIError CreateScreenshotResponse)
    (get : Nat → Except APIError Screenshot) (ctxDone : Nat → Bool)
    (opts : Option CaptureAndWaitOptions) : PollRun Screenshot :=
  let pollInterval := captureWaitPollInterval opts
  let timeout := captureWaitTimeout opts
  match start with
  | .error e => ⟨.err (.apiError e), 0⟩
  | .ok _resp =>
    capturePollLoop get ctxDone pollInterval timeout (pollFuel pollInterval timeout) 0

/-- The polling loop of `screenshots.BatchAndWait`
(screenshots/types.go lines 610–630). -/
def captureBatchPollLoop (get : Nat → Except APIError BatchScreenshotJob)
    (ctxDone : Nat → Bool) (pollInterval timeout : Int) :
    Nat → Nat → PollRun BatchScreenshotJob
  | 0, k => ⟨.err (.timeoutError "Batch job timed out"), k⟩
  | fuel + 1, k =>
    if (k : Int) * pollInterval < timeout then
      match get k with
      | .error e => ⟨.err (.apiError e), k + 1⟩
      | .ok job =>
        if job.status = BatchJobStatusCompleted ∨ job.status = BatchJobStatusFailed ∨
            job.status = BatchJobStatusCancelled then
          ⟨.ok job, k + 1⟩
        else if ctxDone k then
          ⟨.err .ctxCanceled, k + 1⟩
        else
          captureBatchPollLoop get ctxDone pollInterval timeout fuel (k + 1)
    else
      ⟨.err (.timeoutError "Batch job timed out"), k⟩

/-- `screenshots.BatchAndWait` (screenshots/types.go lines 593–633). -/
def ScreenshotsBatchAndWait (start : Except APIError CreateBatchResponse)
    (get : Nat → Except APIError BatchScreenshotJob) (ctxDone : Nat → Bool)
    (opts : Option CaptureAndWaitOptions) : PollRun BatchScreenshotJob :=
  let pollInterval := captureBatchPollInterval opts
  let timeout := captureBatchTimeout opts
  match start with
  | .error e => ⟨.err (.apiError e), 0⟩
  | .ok _resp =>
    captureBatchPollLoop get ctxDone pollInterval timeout (pollFuel pollInterval timeout) 0

/-! ## Loop lemmas

`hpre` always says that every get call before the `K`-th succeeded with a
non-terminal status and that no cancellation fired; `hcond` says the loop
condition held at every iteration up to `K`. -/

/-- A fuel of `pollFuel` never runs out while the loop condition holds. -/
theorem pollFuel_adequate {pollInterval timeout : Int} {K : Nat}
    (hpi : 1 ≤ pollInterval) (h : (K : Int) * pollInterval < timeout) :
    K < pollFuel pollInterval timeout := by
  have hp : ((pollInterval.toNat : Int)) = pollInterval := Int.toNat_of_nonneg (by omega)
  have hp1 : 0 < pollInterval.toNat := by omega
  have ht0 : (0 : Int) < timeout := by nlinarith [Int.natCast_nonneg K]
  have ht : ((timeout.toNat : Int)) = timeout := Int.toNat_of_nonneg (by omega)
  have hKp : K * pollInterval.toNat ≤ timeout.toNat := by
    have h2 : ((K * pollInterval.toNat : Nat) : Int) < ((timeout.toNat : Int)) := by
      push_cast [hp, ht]
      exact h
    exact_mod_cast le_of_lt h2
  have hdiv : K ≤ timeout.toNat / pollInterval.toNat :=
    (Nat.le_div_iff_mul_le hp1).mpr hKp
  unfold pollFuel
  omega

theorem oneLe_resolve {v default : Int} (hd : 1 ≤ default) :
    1 ≤ if v > 0 then v else default := by
  split_ifs with h <;> omega

theorem extractWaitPollInterval_pos (opts : Option ExtractAndWaitOptions) :
    1 ≤ extractWaitPollInterval opts := by
  rcases opts with _ | o
  · norm_num [extractWaitPollInterval, timeSecond]
  · exact oneLe_resolve (by norm_num [timeSecond])

theorem extractBatchPollInterval_pos (opts : Option ExtractAndWaitOptions) :
    1 ≤ extractBatchPollInterval opts := by
  rcases opts with _ | o
  · norm_num [extractBatchPollInterval, timeSecond]
  · exact oneLe_resolve (by norm_num [timeSecond])

theorem captureWaitPollInterval_pos (opts : Option CaptureAndWaitOptions) :
    1 ≤ captureWaitPollInterval opts := by
  rcases opts with _ | o
  · norm_num [captureWaitPollInterval, timeSecond]
  · exact oneLe_resolve (by norm_num [timeSecond])

theorem captureBatchPollInterval_pos (opts : Option CaptureAndWaitOptions) :
    1 ≤ captureBatchPollInterval opts := by
  rcases opts with _ | o
  · norm_num [captureBatchPollInterval, timeSecond]
  · exact oneLe_resolve (by norm_num [timeSecond])

/-- If the `K`-th get call fails, the error is returned at once with
exactly `K + 1` get calls issued. -/
theorem extractPollLoop_apiError (get : Nat → Except APIError ExtractionResult)
    (ctxDone : Nat → Bool) (pollInterval timeout : Int) (K : Nat) (e : APIError)
    (hpre : ∀ j, j < K → ∃ x, get j = .ok x ∧ x.status ≠ ExtractionStatusCompleted ∧
      x.status ≠ ExtractionStatusFailed ∧ ctxDone j = false)
    (hcond : ∀ j, j ≤ K → (j : Int) * pollInterval < timeout)
    (hget : get K = .error e) :
    ∀ fuel k, k ≤ K → K - k < fuel →
      extractPollLoop get ctxDone pollInterval timeout fuel k =
        ⟨.err (.apiError e), K + 1⟩ := by
  intro fuel
  induction fuel with
  | zero => intro k _ hf; omega
  | succ fuel ih =>
    intro k hk hf
    rcases Nat.lt_or_ge k K with hlt | hge
    · obtain ⟨x, hx, hnc, hnf, hd⟩ := hpre k hlt
      have hc := hcond k (le_of_lt hlt)
      simp only [extractPollLoop, hc, if_true, hx, hnc, hnf, hd]
      simp only [or_self, if_false, Bool.false_eq_true, ite_false]
      exact ih (k + 1) hlt (by omega)
    · have hkK : k = K := le_antisymm hk hge
      subst hkK
      have hc := hcond k le_rfl
      simp [extractPollLoop, hc, hget]

/-- If the `K`-th get call reports a `failed` status, the single-item loop
fails with the record's own error text (or the generic message). -/
theorem extractPollLoop_failed (get : Nat → Except APIError ExtractionResult)
    (ctxDone : Nat → Bool) (pollInterval timeout : Int) (K : Nat) (x : ExtractionResult)
    (hpre : ∀ j, j < K → ∃ y, get j = .ok y ∧ y.status ≠ ExtractionStatusCompleted ∧
      y.status ≠ ExtractionStatusFailed ∧ ctxDone j = false)
    (hcond : ∀ j, j ≤ K → (j : Int) * pollInterval < timeout)
    (hget : get K = .ok x) (hst : x.status = ExtractionStatusFailed) :
    ∀ fuel k, k ≤ K → K - k < fuel →
      extractPollLoop get ctxDone pollInterval timeout fuel k =
        ⟨.err (.genericError (x.error.getD "Extraction failed")), K + 1⟩ := by
  intro fuel
  induction fuel with
  | zero => intro k _ hf; omega
  | succ fuel ih =>
    intro k hk hf
    rcases Nat.lt_or_ge k K with hlt | hge
    · obtain ⟨y, hy, hnc, hnf, hd⟩ := hpre k hlt
      have hc := hcond k (le_of_lt hlt)
      simp only [extractPollLoop, hc, if_true, hy, hnc, hnf, hd]
      simp only [or_self, if_false, Bool.false_eq_true, ite_false]
      exact ih (k + 1) hlt (by omega)
    · have hkK : k = K := le_antisymm hk hge
      subst hkK
      have hc := hcond k le_rfl
      simp [extractPollLoop, hc, hget, hst, ExtractionStatusFailed]

/-- If every get call succeeds with a non-terminal status and no
cancellation fires, the single-item loop times out. -/
theorem extractPollLoop_timeout (get : Nat → Except APIError ExtractionResult)
    (ctxDone : Nat → Bool) (pollInterval timeout : Int)
    (hpre : ∀ j, ∃ y, get j = .ok y ∧ y.status ≠ ExtractionStatusCompleted ∧
      y.status ≠ ExtractionStatusFailed ∧ ctxDone j = false) :
    ∀ fuel k, (extractPollLoop get ctxDone pollInterval timeout fuel k).outcome =
      .err (.timeoutError "Extraction timed out") := by
  intro fuel
  induction fuel with
  | zero => intro k; rfl
  | succ fuel ih =>
    intro k
    obtain ⟨y, hy, hnc, hnf, hd⟩ := hpre k
    by_cases hc : (k : Int) * pollInterval < timeout
    · simp only [extractPollLoop, hc, if_true, hy, hnc, hnf, hd]
      simp only [or_self, if_false, Bool.false_eq_true, ite_false]
      exact ih (k + 1)
    · simp [extractPollLoop, hc]

/-- Screenshots single-item loop: get-call failure. -/
theorem capturePollLoop_apiError (get : Nat → Except APIError Screenshot)
    (ctxDone : Nat → Bool) (pollInterval timeout : Int) (K : Nat) (e : APIError)
    (hpre : ∀ j, j < K → ∃ y, get j = .ok y ∧ y.status ≠ ScreenshotStatusCompleted ∧
      y.status ≠ ScreenshotStatusFailed ∧ ctxDone j = false)
    (hcond : ∀ j, j ≤ K → (j : Int) * pollInterval < timeout)
    (hget : get K = .error e) :
    ∀ fuel k, k ≤ K → K - k < fuel →
      capturePollLoop get ctxDone pollInterval timeout fuel k =
        ⟨.err (.apiError e), K + 1⟩ := by
  intro fuel
  induction fuel with
  | zero => intro k _ hf; omega
  | succ fuel ih =>
    intro k hk hf
    rcases Nat.lt_or_ge k K with hlt | hge
    · obtain ⟨y, hy, hnc, hnf, hd⟩ := hpre k hlt
      have hc := hcond k (le_of_lt hlt)
      simp only [capturePollLoop, hc, if_true, hy, hnc, hnf, hd]
      simp only [or_self, if_false, Bool.false_eq_true, ite_false]
      exact ih (k + 1) hlt (by omega)
    · have hkK : k = K := le_antisymm hk hge
      subst hkK
      have hc := hcond k le_rfl
      simp [capturePollLoop, hc, hget]

/-- Screenshots single-item loop: `failed` status. -/
theorem capturePollLoop_failed (get : Nat → Except APIError Screenshot)
    (ctxDone : Nat → Bool) (pollInterval timeout : Int) (K : Nat) (x : Screenshot)
    (hpre : ∀ j, j < K → ∃ y, get j = .ok y ∧ y.status ≠ ScreenshotStatusCompleted ∧
      y.status ≠ ScreenshotStatusFailed ∧ ctxDone j = false)
    (hcond : ∀ j, j ≤ K → (j : Int) * pollInterval < timeout)
    (hget : get K = .ok x) (hst : x.status = ScreenshotStatusFailed) :
    ∀ fuel k, k ≤ K → K - k < fuel →
      capturePollLoop get ctxDone pollInterval timeout fuel k =
        ⟨.err (.genericError (x.error.getD "Screenshot failed")), K + 1⟩ := by
  intro fuel
  induction fuel with
  | zero => intro k _ hf; omega
  | succ fuel ih =>
    intro k hk hf
    rcases Nat.lt_or_ge k K with hlt | hge
    · obtain ⟨y, hy, hnc, hnf, hd⟩ := hpre k hlt
      have hc := hcond k (le_of_lt hlt)
      simp only [capturePollLoop, hc, if_true, hy, hnc, hnf, hd]
      simp only [or_self, if_false, Bool.false_eq_true, ite_false]
      exact ih (k + 1) hlt (by omega)
    · have hkK : k = K := le_antisymm hk hge
      subst hkK
      have hc := hcond k le_rfl
      simp [capturePollLoop, hc, hget, hst, ScreenshotStatusFailed]

/-- Screenshots single-item loop: timeout. -/
theorem capturePollLoop_timeout (get : Nat → Except APIError Screenshot)
    (ctxDone : Nat → Bool) (pollInterval timeout : Int)
    (hpre : ∀ j, ∃ y, get j = .ok y ∧ y.status ≠ ScreenshotStatusCompleted ∧
      y.status ≠ ScreenshotStatusFailed ∧ ctxDone j = false) :
    ∀ fuel k, (capturePollLoop get ctxDone pollInterval timeout fuel k).outcome =
      .err (.timeoutError "Screenshot timed out") := by
  intro fuel
  induction fuel with
  | zero => intro k; rfl
  | succ fuel ih =>
    intro k
    obtain ⟨y, hy, hnc, hnf, hd⟩ := hpre k
    by_cases hc : (k : Int) * pollInterval < timeout
    · simp only [capturePollLoop, hc, if_true, hy, hnc, hnf, hd]
      simp only [or_self, if_false, Bool.false_eq_true, ite_false]
      exact ih (k + 1)
    · simp [capturePollLoop, hc]

/-- Extraction batch loop: get-call failure. -/
theorem extractBatchPollLoop_apiError (get : Nat → Except APIError BatchExtractionJob)
    (ctxDone : Nat → Bool) (pollInterval timeout : Int) (K : Nat) (e : APIError)
    (hpre : ∀ j, j < K → ∃ y, get j = .ok y ∧ y.status ≠ BatchJobStatusCompleted ∧
      y.status ≠ BatchJobStatusFailed ∧ y.status ≠ BatchJobStatusCancelled ∧ ctxDone j = false)
    (hcond : ∀ j, j ≤ K → (j : Int) * pollInterval < timeout)
    (hget : get K = .error e) :
    ∀ fuel k, k ≤ K → K - k < fuel →
      extractBatchPollLoop get ctxDone pollInterval timeout fuel k =
        ⟨.err (.apiError e), K + 1⟩ := by
  intro fuel
  induction fuel with
  | zero => intro k _ hf; omega
  | succ fuel ih =>
    intro k hk hf
    rcases Nat.lt_or_ge k K with hlt | hge
    · obtain ⟨y, hy, hnc, hnf, hnx, hd⟩ := hpre k hlt
      have hc := hcond k (le_of_lt hlt)
      simp only [extractBatchPollLoop, hc, if_true, hy, hnc, hnf, hnx, hd]
      simp only [or_self, if_false, Bool.false_eq_true, ite_false]
      exact ih (k + 1) hlt (by omega)
    · have hkK : k = K := le_antisymm hk hge
      subst hkK
      have hc := hcond k le_rfl
      simp [extractBatchPollLoop, hc, hget]

/-- Extraction batch loop: any of the three terminal statuses returns the
job record without an error. -/
theorem extractBatchPollLoop_terminal (get : Nat → Except APIError BatchExtractionJob)
    (ctxDone : Nat → Bool) (pollInterval timeout : Int) (K : Nat) (job : BatchExtractionJob)
    (hpre : ∀ j, j < K → ∃ y, get j = .ok y ∧ y.status ≠ BatchJobStatusCompleted ∧
      y.status ≠ BatchJobStatusFailed ∧ y.status ≠ BatchJobStatusCancelled ∧ ctxDone j = false)
    (hcond : ∀ j, j ≤ K → (j : Int) * pollInterval < timeout)
    (hget : get K = .ok job)
    (hst : job.status = BatchJobStatusCompleted ∨ job.status = BatchJobStatusFailed ∨
      job.status = BatchJobStatusCancelled) :
    ∀ fuel k, k ≤ K → K - k < fuel →
      extractBatchPollLoop get ctxDone pollInterval timeout fuel k =
        ⟨.ok job, K + 1⟩ := by
  intro fuel
  induction fuel with
  | zero => intro k _ hf; omega
  | succ fuel ih =>
    intro k hk hf
    rcases Nat.lt_or_ge k K with hlt | hge
    · obtain ⟨y, hy, hnc, hnf, hnx, hd⟩ := hpre k hlt
      have hc := hcond k (le_of_lt hlt)
      simp only [extractBatchPollLoop, hc, if_true, hy, hnc, hnf, hnx, hd]
      simp only [or_self, if_false, Bool.false_eq_true, ite_false]
      exact ih (k + 1) hlt (by omega)
    · have hkK : k = K := le_antisymm hk hge
      subst hkK
      have hc := hcond k le_rfl
      simp only [extractBatchPollLoop, hc, if_true, hget]
      rw [if_pos hst]

/-- Extraction batch loop: timeout. -/
theorem extractBatchPollLoop_timeout (get : Nat → Except APIError BatchExtractionJob)
    (ctxDone : Nat → Bool) (pollInterval timeout : Int)
    (hpre : ∀ j, ∃ y, get j = .ok y ∧ y.status ≠ BatchJobStatusCompleted ∧
      y.status ≠ BatchJobStatusFailed ∧ y.status ≠ BatchJobStatusCancelled ∧ ctxDone j = false) :
    ∀ fuel k, (extractBatchPollLoop get ctxDone pollInterval timeout fuel k).outcome =
      .err (.timeoutError "Batch job timed out") := by
  intro fuel
  induction fuel with
  | zero => intro k; rfl
  | succ fuel ih =>
    intro k
    obtain ⟨y, hy, hnc, hnf, hnx, hd⟩ := hpre k
    by_cases hc : (k : Int) * pollInterval < timeout
    · simp only [extractBatchPollLoop, hc, if_true, hy, hnc, hnf, hnx, hd]
      simp only [or_self, if_false, Bool.false_eq_true, ite_false]
      exact ih (k + 1)
    · simp [extractBatchPollLoop, hc]

/-- Screenshots batch loop: get-call failure. -/
theorem captureBatchPollLoop_apiError (get : Nat → Except APIError BatchScreenshotJob)
    (ctxDone : Nat → Bool) (pollInterval timeout : Int) (K : Nat) (e : APIError)
    (hpre : ∀ j, j < K → ∃ y, get j = .ok y ∧ y.status ≠ BatchJobStatusCompleted ∧
      y.status ≠ BatchJobStatusFailed ∧ y.status ≠ BatchJobStatusCancelled ∧ ctxDone j = false)
    (hcond : ∀ j, j ≤ K → (j : Int) * pollInterval < timeout)
    (hget : get K = .error e) :
    ∀ fuel k, k ≤ K → K - k < fuel →
      captureBatchPollLoop get ctxDone pollInterval timeout fuel k =
        ⟨.err (.apiError e), K + 1⟩ := by
  intro fuel
  induction fuel with
  | zero => intro k _ hf; omega
  | succ fuel ih =>
    intro k hk hf
    rcases Nat.lt_or_ge k K with hlt | hge
    · obtain ⟨y, hy, hnc, hnf, hnx, hd⟩ := hpre k hlt
      have hc := hcond k (le_of_lt hlt)
      simp only [captureBatchPollLoop, hc, if_true, hy, hnc, hnf, hnx, hd]
      simp only [or_self, if_false, Bool.false_eq_true, ite_false]
      exact ih (k + 1) hlt (by omega)
    · have hkK : k = K := le_antisymm hk hge
      subst hkK
      have hc := hcond k le_rfl
      simp [captureBatchPollLoop, hc, hget]

/-- Screenshots batch loop: any of the three terminal statuses returns the
job record without an error. -/
theorem captureBatchPollLoop_terminal (get : Nat → Except APIError BatchScreenshotJob)
    (ctxDone : Nat → Bool) (pollInterval timeout : Int) (K : Nat) (job : BatchScreenshotJob)
    (hpre : ∀ j, j < K → ∃ y, get j = .ok y ∧ y.status ≠ BatchJobStatusCompleted ∧
      y.status ≠ BatchJobStatusFailed ∧ y.status ≠ BatchJobStatusCancelled ∧ ctxDone j = false)
    (hcond : ∀ j, j ≤ K → (j : Int) * pollInterval < timeout)
    (hget : get K = .ok job)
    (hst : job.status = BatchJobStatusCompleted ∨ job.status = BatchJobStatusFailed ∨
      job.status = BatchJobStatusCancelled) :
    ∀ fuel k, k ≤ K → K - k < fuel →
      captureBatchPollLoop get ctxDone pollInterval timeout fuel k =
        ⟨.ok job, K + 1⟩ := by
  intro fuel
  induction fuel with
  | zero => intro k _ hf; omega
  | succ fuel ih =>
    intro k hk hf
    rcases Nat.lt_or_ge k K with hlt | hge
    · obtain ⟨y, hy, hnc, hnf, hnx, hd⟩ := hpre k hlt
      have hc := hcond k (le_of_lt hlt)
      simp only [captureBatchPollLoop, hc, if_true, hy, hnc, hnf, hnx, hd]
      simp only [or_self, if_false, Bool.false_eq_true, ite_false]
      exact ih (k + 1) hlt (by omega)
    · have hkK : k = K := le_antisymm hk hge
      subst hkK
      have hc := hcond k le_rfl
      simp only [captureBatchPollLoop, hc, if_true, hget]
      rw [if_pos hst]

/-! ## Concrete fixtures used by witnesses -/

def apiErr500 : APIError := ⟨500, "SERVER_ERROR", "boom", ⟨"boom", "SERVER_ERROR"⟩⟩

def extStart : CreateExtractionResponse := ⟨"ext-123", "pending"⟩

def capStart : CreateScreenshotResponse := ⟨"shot-123", "pending"⟩

def batchStart : CreateBatchResponse := ⟨"batch-123", "pending", 3⟩

def extProcessing : ExtractionResult :=
  { id := "ext-123", url := "https://example.com", status := "processing" }

def extFailedWithMsg : ExtractionResult :=
  { id := "ext-123", url := "https://example.com", status := "failed",
    error := some "Page load failed" }

def extFailedNoMsg : ExtractionResult :=
  { id := "ext-123", url := "https://example.com", status := "failed" }

def shotProcessing : Screenshot :=
  { id := "shot-123", url := "https://example.com", status := "processing" }

def shotFailedWithMsg : Screenshot :=
  { id := "shot-123", url := "https://example.com", status := "failed",
    error := some "Page load failed" }

def batchJobProcessing : BatchExtractionJob :=
  { id := "batch-123", status := "processing", totalURLs := 3 }

def batchJobFailed : BatchExtractionJob :=
  { id := "batch-123", status := "failed", totalURLs := 3, processedURLs := 3,
    successfulURLs := 2, failedURLs := 1 }

def shotBatchJobProcessing : BatchScreenshotJob :=
  { id := "batch-123", status := "processing", totalURLs := 3 }

def shotBatchJobCancelled : BatchScreenshotJob :=
  { id := "batch-123", status := "cancelled", totalURLs := 3 }

/-- Screenshots batch loop: timeout. -/
theorem captureBatchPollLoop_timeout (get : Nat → Except APIError BatchScreenshotJob)
    (ctxDone : Nat → Bool) (pollInterval timeout : Int)
    (hpre : ∀ j, ∃ y, get j = .ok y ∧ y.status ≠ BatchJobStatusCompleted ∧
      y.status ≠ BatchJobStatusFailed ∧ y.status ≠ BatchJobStatusCancelled ∧ ctxDone j = false) :
    ∀ fuel k, (captureBatchPollLoop get ctxDone pollInterval timeout fuel k).outcome =
      .err (.timeoutError "Batch job timed out") := by
  intro fuel
  induction fuel with
  | zero => intro k; rfl
  | succ fuel ih =>
    intro k
    obtain ⟨y, hy, hnc, hnf, hnx, hd⟩ := hpre k
    by_cases hc : (k : Int) * pollInterval < timeout
    · simp only [captureBatchPollLoop, hc, if_true, hy, hnc, hnf, hnx, hd]
      simp only [or_self, if_false, Bool.false_eq_true, ite_false]
      exact ih (k + 1)
    · simp [captureBatchPollLoop, hc]

/-- **C1.** For every invocation of an async-wait helper (`ExtractAndWait`,
`CaptureAndWait`, the two `BatchAndWait`s), the start operation is invoked
exactly once — in the model the single start outcome is consumed once; if
the start call returns an error, that error is returned immediately and no
get-status call is made (`getCalls = 0`); and if the `K`-th get-status call
returns an error, that error is returned immediately with no retry and no
further polling: the result is the error with exactly `K + 1` get calls,
for *every* behaviour of the get calls after `K`. -/
theorem claim_C1 :
    (∀ e get ctxDone opts,
      ExtractAndWait (.error e) get ctxDone opts = ⟨.err (.apiError e), 0⟩) ∧
    (∀ e get ctxDone opts,
      CaptureAndWait (.error e) get ctxDone opts = ⟨.err (.apiError e), 0⟩) ∧
    (∀ e get ctxDone opts,
      ExtractionBatchAndWait (.error e) get ctxDone opts = ⟨.err (.apiError e), 0⟩) ∧
    (∀ e get ctxDone opts,
      ScreenshotsBatchAndWait (.error e) get ctxDone opts = ⟨.err (.apiError e), 0⟩) ∧
    (∀ resp get ctxDone opts (K : Nat) e,
      (∀ j, j < K → ∃ y, get j = .ok y ∧ y.status ≠ ExtractionStatusCompleted ∧
        y.status ≠ ExtractionStatusFailed ∧ ctxDone j = false) →
      (∀ j, j ≤ K → (j : Int) * extractWaitPollInterval opts < extractWaitTimeout opts) →
      get K = .error e →
      ExtractAndWait (.ok resp) get ctxDone opts = ⟨.err (.apiError e), K + 1⟩) ∧
    (∀ resp get ctxDone opts (K : Nat) e,
      (∀ j, j < K → ∃ y, get j = .ok y ∧ y.status ≠ ScreenshotStatusCompleted ∧
        y.status ≠ ScreenshotStatusFailed ∧ ctxDone j = false) →
      (∀ j, j ≤ K → (j : Int) * captureWaitPollInterval opts < captureWaitTimeout opts) →
      get K = .error e →
      CaptureAndWait (.ok resp) get ctxDone opts = ⟨.err (.apiError e), K + 1⟩) ∧
    (∀ resp get ctxDone opts (K : Nat) e,
      (∀ j, j < K → ∃ y, get j = .ok y ∧ y.status ≠ BatchJobStatusCompleted ∧
        y.status ≠ BatchJobStatusFailed ∧ y.status ≠ BatchJobStatusCancelled ∧
        ctxDone j = false) →
      (∀ j, j ≤ K → (j : Int) * extractBatchPollInterval opts < extractBatchTimeout opts) →
      get K = .error e →
      ExtractionBatchAndWait (.ok resp) get ctxDone opts = ⟨.err (.apiError e), K + 1⟩) ∧
    (∀ resp get ctxDone opts (K : Nat) e,
      (∀ j, j < K → ∃ y, get j = .ok y ∧ y.status ≠ BatchJobStatusCompleted ∧
        y.status ≠ BatchJobStatusFailed ∧ y.status ≠ BatchJobStatusCancelled ∧
        ctxDone j = false) →
      (∀ j, j ≤ K → (j : Int) * captureBatchPollInterval opts < captureBatchTimeout opts) →
      get K = .error e →
      ScreenshotsBatchAndWait (.ok resp) get ctxDone opts = ⟨.err (.apiError e), K + 1⟩) := by
  refine ⟨fun _ _ _ _ => rfl, fun _ _ _ _ => rfl, fun _ _ _ _ => rfl, fun _ _ _ _ => rfl,
    ?_, ?_, ?_, ?_⟩
  · intro resp get ctxDone opts K e hpre hcond hget
    simp only [ExtractAndWait]
    exact extractPollLoop_apiError get ctxDone _ _ K e hpre hcond hget _ 0 (Nat.zero_le K)
      (by have := pollFuel_adequate (extractWaitPollInterval_pos opts) (hcond K le_rfl); omega)
  · intro resp get ctxDone opts K e hpre hcond hget
    simp only [CaptureAndWait]
    exact capturePollLoop_apiError get ctxDone _ _ K e hpre hcond hget _ 0 (Nat.zero_le K)
      (by have := pollFuel_adequate (captureWaitPollInterval_pos opts) (hcond K le_rfl); omega)
  · intro resp get ctxDone opts K e hpre hcond hget
    simp only [ExtractionBatchAndWait]
    exact extractBatchPollLoop_apiError get ctxDone _ _ K e hpre hcond hget _ 0 (Nat.zero_le K)
      (by have := pollFuel_adequate (extractBatchPollInterval_pos opts) (hcond K le_rfl); omega)
  · intro resp get ctxDone opts K e hpre hcond hget
    simp only [ScreenshotsBatchAndWait]
    exact captureBatchPollLoop_apiError get ctxDone _ _ K e hpre hcond hget _ 0 (Nat.zero_le K)
      (by have := pollFuel_adequate (captureBatchPollInterval_pos opts) (hcond K le_rfl); omega)

theorem claim_C1_witness :
    ExtractAndWait (.error apiErr500) (fun _ => .ok extProcessing) (fun _ => false) none =
      ⟨.err (.apiError apiErr500), 0⟩ ∧
    ExtractAndWait (.ok extStart)
      (fun j => if j = 0 then .ok extProcessing else .error apiErr500)
      (fun _ => false) (some ⟨1, 3⟩) = ⟨.err (.apiError apiErr500), 2⟩ := by
  constructor
  · exact claim_C1.1 apiErr500 _ _ none
  · exact claim_C1.2.2.2.2.1 extStart _ _ (some ⟨1, 3⟩) 1 apiErr500
      (by intro j hj
          interval_cases j
          exact ⟨extProcessing, rfl, by decide, by decide, rfl⟩)
      (by intro j hj
          simp only [extractWaitPollInterval, extractWaitTimeout]
          norm_num
          omega)
      rfl

/-- **C2.** Both batch pollers return the batch job record without an error
as soon as the polled status is any of `completed`, `failed` or
`cancelled` — they never raise on a failed or cancelled batch status. -/
theorem claim_C2 :
    (∀ resp get ctxDone opts (K : Nat) job,
      (∀ j, j < K → ∃ y, get j = .ok y ∧ y.status ≠ BatchJobStatusCompleted ∧
        y.status ≠ BatchJobStatusFailed ∧ y.status ≠ BatchJobStatusCancelled ∧
        ctxDone j = false) →
      (∀ j, j ≤ K → (j : Int) * extractBatchPollInterval opts < extractBatchTimeout opts) →
      get K = .ok job →
      (job.status = BatchJobStatusCompleted ∨ job.status = BatchJobStatusFailed ∨
        job.status = BatchJobStatusCancelled) →
      ExtractionBatchAndWait (.ok resp) get ctxDone opts = ⟨.ok job, K + 1⟩) ∧
    (∀ resp get ctxDone opts (K : Nat) job,
      (∀ j, j < K → ∃ y, get j = .ok y ∧ y.status ≠ BatchJobStatusCompleted ∧
        y.status ≠ BatchJobStatusFailed ∧ y.status ≠ BatchJobStatusCancelled ∧
        ctxDone j = false) →
      (∀ j, j ≤ K → (j : Int) * captureBatchPollInterval opts < captureBatchTimeout opts) →
      get K = .ok job →
      (job.status = BatchJobStatusCompleted ∨ job.status = BatchJobStatusFailed ∨
        job.status = BatchJobStatusCancelled) →
      ScreenshotsBatchAndWait (.ok resp) get ctxDone opts = ⟨.ok job, K + 1⟩) := by
  constructor
  · intro resp get ctxDone opts K job hpre hcond hget hst
    simp only [ExtractionBatchAndWait]
    exact extractBatchPollLoop_terminal get ctxDone _ _ K job hpre hcond hget hst _ 0
      (Nat.zero_le K)
      (by have := pollFuel_adequate (extractBatchPollInterval_pos opts) (hcond K le_rfl); omega)
  · intro resp get ctxDone opts K job hpre hcond hget hst
    simp only [ScreenshotsBatchAndWait]
    exact captureBatchPollLoop_terminal get ctxDone _ _ K job hpre hcond hget hst _ 0
      (Nat.zero_le K)
      (by have := pollFuel_adequate (captureBatchPollInterval_pos opts) (hcond K le_rfl); omega)

theorem claim_C2_witness :
    ExtractionBatchAndWait (.ok batchStart)
      (fun j => if j = 0 then .ok batchJobProcessing else .ok batchJobFailed)
      (fun _ => false) (some ⟨1, 3⟩) = ⟨.ok batchJobFailed, 2⟩ ∧
    ScreenshotsBatchAndWait (.ok batchStart)
      (fun _ => .ok shotBatchJobCancelled)
      (fun _ => false) (some ⟨1, 3⟩) = ⟨.ok shotBatchJobCancelled, 1⟩ := by
  constructor
  · exact claim_C2.1 batchStart _ _ (some ⟨1, 3⟩) 1 batchJobFailed
      (by intro j hj
          interval_cases j
          exact ⟨batchJobProcessing, rfl, by decide, by decide, by decide, rfl⟩)
      (by intro j hj
          simp only [extractBatchPollInterval, extractBatchTimeout]
          norm_num
          omega)
      rfl (by decide)
  · exact claim_C2.2 batchStart _ _ (some ⟨1, 3⟩) 0 shotBatchJobCancelled
      (by omega)
      (by intro j hj
          simp only [captureBatchPollInterval, captureBatchTimeout]
          norm_num
          omega)
      rfl (by decide)

/-- **C3.** When a single-item poller (`ExtractAndWait`, `CaptureAndWait`)
observes the `failed` terminal status, it returns an error whose message is
the record's own `Error` field when present, and the generic
`"Extraction failed"` / `"Screenshot failed"` message when absent. -/
theorem claim_C3 :
    (∀ resp get ctxDone opts (K : Nat) x m,
      (∀ j, j < K → ∃ y, get j = .ok y ∧ y.status ≠ ExtractionStatusCompleted ∧
        y.status ≠ ExtractionStatusFailed ∧ ctxDone j = false) →
      (∀ j, j ≤ K → (j : Int) * extractWaitPollInterval opts < extractWaitTimeout opts) →
      get K = .ok x → x.status = ExtractionStatusFailed → x.error = some m →
      ExtractAndWait (.ok resp) get ctxDone opts = ⟨.err (.genericError m), K + 1⟩) ∧
    (∀ resp get ctxDone opts (K : Nat) x,
      (∀ j, j < K → ∃ y, get j = .ok y ∧ y.status ≠ ExtractionStatusCompleted ∧
        y.status ≠ ExtractionStatusFailed ∧ ctxDone j = false) →
      (∀ j, j ≤ K → (j : Int) * extractWaitPollInterval opts < extractWaitTimeout opts) →
      get K = .ok x → x.status = ExtractionStatusFailed → x.error = none →
      ExtractAndWait (.ok resp) get ctxDone opts =
        ⟨.err (.genericError "Extraction failed"), K + 1⟩) ∧
    (∀ resp get ctxDone opts (K : Nat) x m,
      (∀ j, j < K → ∃ y, get j = .ok y ∧ y.status ≠ ScreenshotStatusCompleted ∧
        y.status ≠ ScreenshotStatusFailed ∧ ctxDone j = false) →
      (∀ j, j ≤ K → (j : Int) * captureWaitPollInterval opts < captureWaitTimeout opts) →
      get K = .ok x → x.status = ScreenshotStatusFailed → x.error = some m →
      CaptureAndWait (.ok resp) get ctxDone opts = ⟨.err (.genericError m), K + 1⟩) ∧
    (∀ resp get ctxDone opts (K : Nat) x,
      (∀ j, j < K → ∃ y, get j = .ok y ∧ y.status ≠ ScreenshotStatusCompleted ∧
        y.status ≠ ScreenshotStatusFailed ∧ ctxDone j = false) →
      (∀ j, j ≤ K → (j : Int) * captureWaitPollInterval opts < captureWaitTimeout opts) →
      get K = .ok x → x.status = ScreenshotStatusFailed → x.error = none →
      CaptureAndWait (.ok resp) get ctxDone opts =
        ⟨.err (.genericError "Screenshot failed"), K + 1⟩) := by
  refine ⟨?_, ?_, ?_, ?_⟩
  · intro resp get ctxDone opts K x m hpre hcond hget hst herr
    simp only [ExtractAndWait]
    have h := extractPollLoop_failed get ctxDone _ _ K x hpre hcond hget hst
      (pollFuel (extractWaitPollInterval opts) (extractWaitTimeout opts)) 0 (Nat.zero_le K)
      (by have := pollFuel_adequate (extractWaitPollInterval_pos opts) (hcond K le_rfl); omega)
    rwa [herr] at h
  · intro resp get ctxDone opts K x hpre hcond hget hst herr
    simp only [ExtractAndWait]
    have h := extractPollLoop_failed get ctxDone _ _ K x hpre hcond hget hst
      (pollFuel (extractWaitPollInterval opts) (extractWaitTimeout opts)) 0 (Nat.zero_le K)
      (by have := pollFuel_adequate (extractWaitPollInterval_pos opts) (hcond K le_rfl); omega)
    rwa [herr] at h
  · intro resp get ctxDone opts K x m hpre hcond hget hst herr
    simp only [CaptureAndWait]
    have h := capturePollLoop_failed get ctxDone _ _ K x hpre hcond hget hst
      (pollFuel (captureWaitPollInterval opts) (captureWaitTimeout opts)) 0 (Nat.zero_le K)
      (by have := pollFuel_adequate (captureWaitPollInterval_pos opts) (hcond K le_rfl); omega)
    rwa [herr] at h
  · intro resp get ctxDone opts K x hpre hcond hget hst herr
    simp only [CaptureAndWait]
    have h := capturePollLoop_failed get ctxDone _ _ K x hpre hcond hget hst
      (pollFuel (captureWaitPollInterval opts) (captureWaitTimeout opts)) 0 (Nat.zero_le K)
      (by have := pollFuel_adequate (captureWaitPollInterval_pos opts) (hcond K le_rfl); omega)
    rwa [herr] at h

theorem claim_C3_witness :
    ExtractAndWait (.ok extStart) (fun _ => .ok extFailedWithMsg) (fun _ => false) none =
      ⟨.err (.genericError "Page load failed"), 1⟩ ∧
    ExtractAndWait (.ok extStart) (fun _ => .ok extFailedNoMsg) (fun _ => false) none =
      ⟨.err (.genericError "Extraction failed"), 1⟩ ∧
    CaptureAndWait (.ok capStart) (fun _ => .ok shotFailedWithMsg) (fun _ => false) none =
      ⟨.err (.genericError "Page load failed"), 1⟩ := by
  refine ⟨?_, ?_, ?_⟩
  · exact claim_C3.1 extStart _ _ none 0 extFailedWithMsg "Page load failed"
      (by omega)
      (by intro j hj
          simp only [extractWaitPollInterval, extractWaitTimeout, timeSecond]
          norm_num
          omega)
      rfl (by decide) (by decide)
  · exact claim_C3.2.1 extStart _ _ none 0 extFailedNoMsg
      (by omega)
      (by intro j hj
          simp only [extractWaitPollInterval, extractWaitTimeout, timeSecond]
          norm_num
          omega)
      rfl (by decide) (by decide)
  · exact claim_C3.2.2.1 capStart _ _ none 0 shotFailedWithMsg "Page load failed"
      (by omega)
      (by intro j hj
          simp only [captureWaitPollInterval, captureWaitTimeout, timeSecond]
          norm_num
          omega)
      rfl (by decide) (by decide)

/-- **C4.** If every get-status call succeeds with a non-terminal status
(and no cancellation fires), every async-wait helper returns a
`types.TimeoutError` — the `SdkError.timeoutError` kind — which is a
different error type from `types.APIError`, from the plain domain-failure
error, and from the cancellation error, so callers can branch on it. -/
theorem claim_C4 :
    (∀ resp get ctxDone opts,
      (∀ j, ∃ y, get j = .ok y ∧ y.status ≠ ExtractionStatusCompleted ∧
        y.status ≠ ExtractionStatusFailed ∧ ctxDone j = false) →
      (ExtractAndWait (.ok resp) get ctxDone opts).outcome =
        .err (.timeoutError "Extraction timed out")) ∧
    (∀ resp get ctxDone opts,
      (∀ j, ∃ y, get j = .ok y ∧ y.status ≠ ScreenshotStatusCompleted ∧
        y.status ≠ ScreenshotStatusFailed ∧ ctxDone j = false) →
      (CaptureAndWait (.ok resp) get ctxDone opts).outcome =
        .err (.timeoutError "Screenshot timed out")) ∧
    (∀ resp get ctxDone opts,
      (∀ j, ∃ y, get j = .ok y ∧ y.status ≠ BatchJobStatusCompleted ∧
        y.status ≠ BatchJobStatusFailed ∧ y.status ≠ BatchJobStatusCancelled ∧
        ctxDone j = false) →
      (ExtractionBatchAndWait (.ok resp) get ctxDone opts).outcome =
        .err (.timeoutError "Batch job timed out")) ∧
    (∀ resp get ctxDone opts,
      (∀ j, ∃ y, get j = .ok y ∧ y.status ≠ BatchJobStatusCompleted ∧
        y.status ≠ BatchJobStatusFailed ∧ y.status ≠ BatchJobStatusCancelled ∧
        ctxDone j = false) →
      (ScreenshotsBatchAndWait (.ok resp) get ctxDone opts).outcome =
        .err (.timeoutError "Batch job timed out")) ∧
    (∀ (m : String) (a : APIError), SdkError.timeoutError m ≠ SdkError.apiError a) ∧
    (∀ (m m' : String), SdkError.timeoutError m ≠ SdkError.genericError m') ∧
    (∀ (m : String), SdkError.timeoutError m ≠ SdkError.ctxCanceled) := by
  refine ⟨?_, ?_, ?_, ?_, ?_, ?_, ?_⟩
  · intro resp get ctxDone opts hpre
    simp only [ExtractAndWait]
    exact extractPollLoop_timeout get ctxDone _ _ hpre _ 0
  · intro resp get ctxDone opts hpre
    simp only [CaptureAndWait]
    exact capturePollLoop_timeout get ctxDone _ _ hpre _ 0
  · intro resp get ctxDone opts hpre
    simp only [ExtractionBatchAndWait]
    exact extractBatchPollLoop_timeout get ctxDone _ _ hpre _ 0
  · intro resp get ctxDone opts hpre
    simp only [ScreenshotsBatchAndWait]
    exact captureBatchPollLoop_timeout get ctxDone _ _ hpre _ 0
  · intro m a
    simp
  · intro m m'
    simp
  · intro m
    simp

theorem claim_C4_witness :
    (ExtractAndWait (.ok extStart) (fun _ => .ok extProcessing) (fun _ => false)
        (some ⟨1, 3⟩)).outcome = .err (.timeoutError "Extraction timed out") ∧
    (ScreenshotsBatchAndWait (.ok batchStart) (fun _ => .ok shotBatchJobProcessing)
        (fun _ => false) (some ⟨1, 3⟩)).outcome =
      .err (.timeoutError "Batch job timed out") := by
  constructor
  · exact claim_C4.1 extStart _ _ (some ⟨1, 3⟩)
      (fun j => ⟨extProcessing, rfl, by decide, by decide, rfl⟩)
  · exact claim_C4.2.2.2.1 batchStart _ _ (some ⟨1, 3⟩)
      (fun j => ⟨shotBatchJobProcessing, rfl, by decide, by decide, by decide, rfl⟩)

/-- **C10.** With `opts = nil` the pollers use the default poll interval /
timeout (1s/60s for the single-item helpers, 2s/300s for the batch
helpers); a zero or negative option field leaves the default in force, only
a strictly positive value overrides it, and a run with both fields ≤ 0 is
indistinguishable from a run with `opts = nil`. -/
theorem claim_C10 :
    (extractWaitPollInterval none = 1 * timeSecond ∧
      extractWaitTimeout none = 60 * timeSecond ∧
      captureWaitPollInterval none = 1 * timeSecond ∧
      captureWaitTimeout none = 60 * timeSecond ∧
      extractBatchPollInterval none = 2 * timeSecond ∧
      extractBatchTimeout none = 300 * timeSecond ∧
      captureBatchPollInterval none = 2 * timeSecond ∧
      captureBatchTimeout none = 300 * timeSecond) ∧
    (∀ o : ExtractAndWaitOptions, o.pollInterval ≤ 0 →
      extractWaitPollInterval (some o) = 1 * timeSecond ∧
      extractBatchPollInterval (some o) = 2 * timeSecond) ∧
    (∀ o : ExtractAndWaitOptions, o.timeout ≤ 0 →
      extractWaitTimeout (some o) = 60 * timeSecond ∧
      extractBatchTimeout (some o) = 300 * timeSecond) ∧
    (∀ o : CaptureAndWaitOptions, o.pollInterval ≤ 0 →
      captureWaitPollInterval (some o) = 1 * timeSecond ∧
      captureBatchPollInterval (some o) = 2 * timeSecond) ∧
    (∀ o : CaptureAndWaitOptions, o.timeout ≤ 0 →
      captureWaitTimeout (some o) = 60 * timeSecond ∧
      captureBatchTimeout (some o) = 300 * timeSecond) ∧
    (∀ o : ExtractAndWaitOptions, 0 < o.pollInterval → 0 < o.timeout →
      extractWaitPollInterval (some o) = o.pollInterval ∧
      extractWaitTimeout (some o) = o.timeout ∧
      extractBatchPollInterval (some o) = o.pollInterval ∧
      extractBatchTimeout (some o) = o.timeout) ∧
    (∀ o : CaptureAndWaitOptions, 0 < o.pollInterval → 0 < o.timeout →
      captureWaitPollInterval (some o) = o.pollInterval ∧
      captureWaitTimeout (some o) = o.timeout ∧
      captureBatchPollInterval (some o) = o.pollInterval ∧
      captureBatchTimeout (some o) = o.timeout) ∧
    (∀ start get ctxDone (o : ExtractAndWaitOptions), o.pollInterval ≤ 0 → o.timeout ≤ 0 →
      ExtractAndWait start get ctxDone (some o) = ExtractAndWait start get ctxDone none) ∧
    (∀ start get ctxDone (o : CaptureAndWaitOptions), o.pollInterval ≤ 0 → o.timeout ≤ 0 →
      CaptureAndWait start get ctxDone (some o) = CaptureAndWait start get ctxDone none) ∧
    (∀ start get ctxDone (o : ExtractAndWaitOptions), o.pollInterval ≤ 0 → o.timeout ≤ 0 →
      ExtractionBatchAndWait start get ctxDone (some o) =
        ExtractionBatchAndWait start get ctxDone none) ∧
    (∀ start get ctxDone (o : CaptureAndWaitOptions), o.pollInterval ≤ 0 → o.timeout ≤ 0 →
      ScreenshotsBatchAndWait start get ctxDone (some o) =
        ScreenshotsBatchAndWait start get ctxDone none) := by
  refine ⟨⟨rfl, rfl, rfl, rfl, rfl, rfl, rfl, rfl⟩, ?_, ?_, ?_, ?_, ?_, ?_, ?_, ?_, ?_, ?_⟩
  · intro o h
    constructor <;> simp only [extractWaitPollInterval, extractBatchPollInterval] <;>
      rw [if_neg (by omega)]
  · intro o h
    constructor <;> simp only [extractWaitTimeout, extractBatchTimeout] <;>
      rw [if_neg (by omega)]
  · intro o h
    constructor <;> simp only [captureWaitPollInterval, captureBatchPollInterval] <;>
      rw [if_neg (by omega)]
  · intro o h
    constructor <;> simp only [captureWaitTimeout, captureBatchTimeout] <;>
      rw [if_neg (by omega)]
  · intro o h1 h2
    refine ⟨?_, ?_, ?_, ?_⟩ <;>
      simp only [extractWaitPollInterval, extractWaitTimeout, extractBatchPollInterval,
        extractBatchTimeout] <;> rw [if_pos (by omega)]
  · intro o h1 h2
    refine ⟨?_, ?_, ?_, ?_⟩ <;>
      simp only [captureWaitPollInterval, captureWaitTimeout, captureBatchPollInterval,
        captureBatchTimeout] <;> rw [if_pos (by omega)]
  · intro start get ctxDone o h1 h2
    have e1 : extractWaitPollInterval (some o) = extractWaitPollInterval none := by
      simp only [extractWaitPollInterval]; rw [if_neg (by omega)]
    have e2 : extractWaitTimeout (some o) = extractWaitTimeout none := by
      simp only [extractWaitTimeout]; rw [if_neg (by omega)]
    simp only [ExtractAndWait, e1, e2]
  · intro start get ctxDone o h1 h2
    have e1 : captureWaitPollInterval (some o) = captureWaitPollInterval none := by
      simp only [captureWaitPollInterval]; rw [if_neg (by omega)]
    have e2 : captureWaitTimeout (some o) = captureWaitTimeout none := by
      simp only [captureWaitTimeout]; rw [if_neg (by omega)]
    simp only [CaptureAndWait, e1, e2]
  · intro start get ctxDone o h1 h2
    have e1 : extractBatchPollInterval (some o) = extractBatchPollInterval none := by
      simp only [extractBatchPollInterval]; rw [if_neg (by omega)]
    have e2 : extractBatchTimeout (some o) = extractBatchTimeout none := by
      simp only [extractBatchTimeout]; rw [if_neg (by omega)]
    simp only [ExtractionBatchAndWait, e1, e2]
  · intro start get ctxDone o h1 h2
    have e1 : captureBatchPollInterval (some o) = captureBatchPollInterval none := by
      simp only [captureBatchPollInterval]; rw [if_neg (by omega)]
    have e2 : captureBatchTimeout (some o) = captureBatchTimeout none := by
      simp only [captureBatchTimeout]; rw [if_neg (by omega)]
    simp only [ScreenshotsBatchAndWait, e1, e2]

/-! ## Package `cdn`: nearest-width snapping (client.go)

Go `int` is 64-bit two's-complement and its arithmetic wraps, so the
subtraction and negation in `getNearestWidth` / `abs` are modelled with an
explicit wrap-around. -/

/-- `cdn.AllowedWidths`: widths matching the CloudFront url-rewriter. -/
def AllowedWidths : List Int := [256, 384, 640, 750, 828, 1080, 1200, 1920, 2048, 3840]

/-- Reduce an integer to the 64-bit two's-complement range
(the constants are 2^63 and 2^64). -/
def wrap64 (x : Int) : Int :=
  (x + 9223372036854775808) % 18446744073709551616 - 9223372036854775808

/-- `cdn.abs`: `if x < 0 { return -x }; return x` (the negation of
`math.MinInt64` wraps back to itself). -/
def goAbs (x : Int) : Int := if x < 0 then wrap64 (-x) else x

/-- `cdn.getNearestWidth`: linear scan over `AllowedWidths` starting from
`AllowedWidths[0]`, keeping the current best unless a strictly smaller
distance is found. -/
def getNearestWidth (width : Int) : Int :=
  AllowedWidths.foldl
    (fun nearest w =>
      if goAbs (wrap64 (w - width)) < goAbs (wrap64 (nearest - width)) then w else nearest)
    (AllowedWidths.headD 0)

theorem wrap64_eq {x : Int} (h1 : -9223372036854775808 ≤ x)
    (h2 : x < 9223372036854775808) : wrap64 x = x := by
  unfold wrap64
  omega

theorem goAbs_eq {x : Int} (h1 : -9223372036854775808 < x)
    (h2 : x < 9223372036854775808) : goAbs x = |x| := by
  unfold goAbs
  split_ifs with h
  · rw [wrap64_eq (by omega) (by omega), abs_of_neg h]
  · rw [abs_of_nonneg (by omega)]

/-- The scan returns its initial value or a list element, never exceeds the
cost of the initial value, and minimises the cost over the list. -/
theorem foldl_nearest_spec (f : Int → Int) :
    ∀ (l : List Int) (a : Int),
      (l.foldl (fun n w => if f w < f n then w else n) a = a ∨
        l.foldl (fun n w => if f w < f n then w else n) a ∈ l) ∧
      f (l.foldl (fun n w => if f w < f n then w else n) a) ≤ f a ∧
      (∀ w ∈ l, f (l.foldl (fun n w => if f w < f n then w else n) a) ≤ f w) := by
  intro l
  induction l with
  | nil => exact fun a => ⟨.inl rfl, le_rfl, by simp⟩
  | cons w l ih =>
    intro a
    simp only [List.foldl_cons]
    by_cases h : f w < f a
    · rw [if_pos h]
      obtain ⟨hmem, hle, hall⟩ := ih w
      refine ⟨.inr ?_, le_trans hle h.le, ?_⟩
      · rcases hmem with h' | h'
        · rw [h']; exact List.mem_cons_self w l
        · exact List.mem_cons_of_mem w h'
      · intro v hv
        rcases List.mem_cons.mp hv with h' | h'
        · rw [h']; exact hle
        · exact hall v h'
    · rw [if_neg h]
      obtain ⟨hmem, hle, hall⟩ := ih a
      refine ⟨?_, hle, ?_⟩
      · rcases hmem with h' | h'
        · exact .inl h'
        · exact .inr (List.mem_cons_of_mem w h')
      · intro v hv
        rcases List.mem_cons.mp hv with h' | h'
        · rw [h']; exact le_trans hle (le_of_not_lt h)
        · exact hall v h'

/-- With a weakly-increasing scan list, the first-wins strict comparison
breaks cost ties toward the smaller (earlier) element. -/
theorem foldl_nearest_tie (f : Int → Int) :
    ∀ (l : List Int) (a : Int), List.Pairwise (· ≤ ·) (a :: l) →
      ∀ w ∈ a :: l, f w = f (l.foldl (fun n v => if f v < f n then v else n) a) →
        l.foldl (fun n v => if f v < f n then v else n) a ≤ w := by
  intro l
  induction l with
  | nil =>
    intro a _ w hw _
    simp only [List.foldl_nil]
    rcases List.mem_cons.mp hw with h' | h'
    · rw [h']
    · cases h'
  | cons v l ih =>
    intro a hsorted w hw hfw
    simp only [List.foldl_cons] at hfw ⊢
    rcases List.pairwise_cons.mp hsorted with ⟨harel, hvl⟩
    by_cases h : f v < f a
    · rw [if_pos h] at hfw ⊢
      rcases List.mem_cons.mp hw with h' | h'
      · -- w = a: impossible tie, since the result costs at most f v < f a
        exfalso
        have hres := (foldl_nearest_spec f l v).2.1
        rw [h'] at hfw
        omega
      · exact ih v hvl w h' hfw
    · rw [if_neg h] at hfw ⊢
      have hsorted' : List.Pairwise (· ≤ ·) (a :: l) := by
        refine List.pairwise_cons.mpr ⟨?_, (List.pairwise_cons.mp hvl).2⟩
        intro x hx
        exact harel x (List.mem_cons_of_mem v hx)
      rcases List.mem_cons.mp hw with h' | h'
      · rw [h'] at hfw ⊢
        exact ih a hsorted' a (List.mem_cons_self a l) hfw
      · rcases List.mem_cons.mp h' with h'' | h''
        · -- w = v: the result ties with a, which precedes v
          have hres := (foldl_nearest_spec f l a).2.1
          have hav : a ≤ v := harel v (List.mem_cons_self v l)
          rw [h''] at hfw ⊢
          have hfa : f a = f (l.foldl (fun n v => if f v < f n then v else n) a) := by
            have hvf : f a ≤ f v := le_of_not_lt h
            omega
          have := ih a hsorted' a (List.mem_cons_self a l) hfa
          omega
        · exact ih a hsorted' w (List.mem_cons_of_mem a h'') hfw

set_option maxRecDepth 40000 in
/-- The claim as stated fails on the code: at `width = -2^63` (Go
`math.MinInt64`) the 64-bit wrap-around of `w - width` reverses the
comparisons and the scan returns `3840`, although `256` has a strictly
smaller true absolute difference. -/
theorem claim_C5_counterexample :
    getNearestWidth (-9223372036854775808) = 3840 ∧
    (256 : Int) ∈ AllowedWidths ∧
    |(256 : Int) - (-9223372036854775808)| < |(3840 : Int) - (-9223372036854775808)| := by
  refine ⟨by decide, by decide, ?_⟩
  rw [abs_of_nonneg (by norm_num), abs_of_nonneg (by norm_num)]
  norm_num

set_option maxRecDepth 40000 in
/-- **C5 (amended).** `getNearestWidth` always returns a member of the
fixed list; on the overflow-free range `|width| ≤ 2^62` it minimises the
absolute difference to the input with ties broken toward the smaller
value; and `getNearestWidth 100 = 256`, `getNearestWidth 1100 = 1080`,
`getNearestWidth 4000 = 3840`.  (For inputs near `math.MinInt64` the
64-bit wrap-around in the distance computation makes the scan return a
non-nearest member — see the counterexample.) -/
theorem claim_C5 :
    (∀ width : Int, getNearestWidth width ∈ AllowedWidths) ∧
    (∀ width : Int, -4611686018427387904 ≤ width → width ≤ 4611686018427387904 →
      ∀ w ∈ AllowedWidths,
        |getNearestWidth width - width| ≤ |w - width| ∧
        (|w - width| = |getNearestWidth width - width| → getNearestWidth width ≤ w)) ∧
    getNearestWidth 100 = 256 ∧ getNearestWidth 1100 = 1080 ∧ getNearestWidth 4000 = 3840 := by
  have hres : ∀ width : Int, getNearestWidth width =
      AllowedWidths.foldl
        (fun n v => if goAbs (wrap64 (v - width)) < goAbs (wrap64 (n - width)) then v else n)
        256 := fun _ => rfl
  have hmem : ∀ width : Int, getNearestWidth width ∈ AllowedWidths := by
    intro width
    rw [hres]
    rcases (foldl_nearest_spec (fun x => goAbs (wrap64 (x - width))) AllowedWidths 256).1
      with h | h
    · rw [h]; decide
    · exact h
  refine ⟨hmem, ?_, by decide, by decide, by decide⟩
  intro width hlo hhi w hw
  have hwb : ∀ v ∈ AllowedWidths, (256 : Int) ≤ v ∧ v ≤ 3840 := by decide
  have habs : ∀ v ∈ AllowedWidths, goAbs (wrap64 (v - width)) = |v - width| := by
    intro v hv
    obtain ⟨h1, h2⟩ := hwb v hv
    rw [wrap64_eq (by omega) (by omega), goAbs_eq (by omega) (by omega)]
  have hspec := foldl_nearest_spec (fun x => goAbs (wrap64 (x - width))) AllowedWidths 256
  constructor
  · have h := hspec.2.2 w hw
    rw [← hres] at h
    rwa [habs w hw, habs _ (hmem width)] at h
  · intro hties
    -- peel the first scan step (comparing the seed with itself) to apply
    -- the tie lemma on `256 :: tail`
    have hfold : AllowedWidths.foldl
        (fun n v => if goAbs (wrap64 (v - width)) < goAbs (wrap64 (n - width)) then v else n)
        256 =
        AllowedWidths.tail.foldl
        (fun n v => if goAbs (wrap64 (v - width)) < goAbs (wrap64 (n - width)) then v else n)
        256 := by
      show List.foldl _ 256 (256 :: AllowedWidths.tail) = _
      rw [List.foldl_cons, if_neg (lt_irrefl _)]
    have hp : List.Pairwise (· ≤ ·) ((256 : Int) :: AllowedWidths.tail) := by decide
    have hw' : w ∈ (256 : Int) :: AllowedWidths.tail := hw
    have htie' : (goAbs (wrap64 (w - width)) =
        goAbs (wrap64 (AllowedWidths.tail.foldl
          (fun n v => if goAbs (wrap64 (v - width)) < goAbs (wrap64 (n - width)) then v else n)
          256 - width))) →
        AllowedWidths.tail.foldl
          (fun n v => if goAbs (wrap64 (v - width)) < goAbs (wrap64 (n - width)) then v else n)
          256 ≤ w :=
      foldl_nearest_tie (fun x => goAbs (wrap64 (x - width))) AllowedWidths.tail 256 hp w hw'
    have hkey : getNearestWidth width =
        AllowedWidths.tail.foldl
          (fun n v => if goAbs (wrap64 (v - width)) < goAbs (wrap64 (n - width)) then v else n)
          256 := (hres width).trans hfold
    rw [hkey]
    apply htie'
    rw [← hkey, habs w hw, habs _ (hmem width)]
    exact hties

theorem claim_C5_witness :
    (-4611686018427387904 ≤ (1100 : Int) ∧ (1100 : Int) ≤ 4611686018427387904) ∧
    getNearestWidth 1100 ∈ AllowedWidths ∧
    (|getNearestWidth 1100 - 1100| ≤ |(1200 : Int) - 1100| ∧
      (|(1200 : Int) - 1100| = |getNearestWidth 1100 - 1100| →
        getNearestWidth 1100 ≤ 1200)) := by
  refine ⟨⟨by norm_num, by norm_num⟩, claim_C5.1 1100, ?_⟩
  exact claim_C5.2.1 1100 (by norm_num) (by norm_num) 1200 (by decide)

/-! ## Package `cdn`: client-side transform URL builder

String operations are modelled over `String.data` (`List Char`); all
claim-relevant strings are ASCII, where Go's byte-wise operations coincide
with the character-wise ones used here. -/

theorem stringExt {a b : String} (h : a.data = b.data) : a = b := congrArg String.mk h

/-- Go `strings.HasPrefix`. -/
def strHasPrefix (s p : String) : Bool := p.data.isPrefixOf s.data

/-- Go `strings.TrimSuffix` (removes one copy of the suffix if present). -/
def strTrimSuffix (s suffix : String) : String :=
  if suffix.data.isSuffixOf s.data then
    ⟨s.data.take (s.data.length - suffix.data.length)⟩
  else s

/-- `net/url`'s `stringContainsCTLByte`: any byte < 0x20 or = 0x7f. -/
def containsCTLByte (s : String) : Bool :=
  s.data.any (fun c => decide (c.toNat < 32) || decide (c.toNat = 127))

/-- The parts of a parsed URL that `GetTransformURL` reads
(`parsed.Scheme`, `parsed.Host`, `parsed.Path`). -/
structure URLParts where
  scheme : String
  host : String
  path : String
deriving DecidableEq, Repr

/-- Model of `net/url.Parse` for `http://` / `https://` URLs.  As in
`Parse`, the fragment is split off at the first `#` before anything else
(so a control byte *in the fragment* is not an error), then the
pre-fragment part is rejected if it contains a control byte
(`net/url: invalid control character in URL`); the host extends to the
first `/` or `?`, the path to the first `?`.  `Parse`'s remaining
validation and decoding (percent-escapes, host character set, userinfo,
ports, bracketed hosts) is *not* modelled, so this function is exact only
on two sub-domains, and the theorems below consult it only there: inputs
whose part after the scheme is made of `plainURLChar`s (where `Parse`
decodes nothing and accepts the host), and inputs with a control byte in
the pre-fragment part (where `Parse` fails exactly as modelled). -/
def urlParse (s : String) : Option URLParts :=
  let prefrag : String := ⟨s.data.takeWhile (fun c => c != '#')⟩
  if containsCTLByte prefrag then none
  else
    let rest : Option (String × List Char) :=
      if strHasPrefix s "http://" then some ("http", prefrag.data.drop 7)
      else if strHasPrefix s "https://" then some ("https", prefrag.data.drop 8)
      else none
    match rest with
    | none => none
    | some (scheme, r1) =>
      let host := r1.takeWhile (fun c => c != '/' && c != '?')
      let afterHost := r1.dropWhile (fun c => c != '/' && c != '?')
      let path := afterHost.takeWhile (fun c => c != '?')
      some ⟨scheme, ⟨host⟩, ⟨path⟩⟩

/-- The full-URL test of `GetTransformURL`:
`strings.HasPrefix(s, "http://") || strings.HasPrefix(s, "https://")`. -/
def isFullURL (s : String) : Bool :=
  strHasPrefix s "http://" || strHasPrefix s "https://"

/-- `cdn.TransformOptions` (pointer fields as `Option`, flag fields as
`Bool`, exactly as in cdn/types.go). -/
structure TransformOptions where
  width : Option Int := none
  height : Option Int := none
  fit : Option String := none
  format : Option String := none
  quality : Option Int := none
  crop : Option String := none
  cropX : Option Int := none
  cropY : Option Int := none
  cropWidth : Option Int := none
  cropHeight : Option Int := none
  blur : Option Int := none
  sharpen : Option Int := none
  brightness : Option Int := none
  saturation : Option Int := none
  grayscale : Bool := false
  rotate : Option Int := none
  flip : Bool := false
  flop : Bool := false
deriving DecidableEq, Repr

/-- `net/url.Values` as an association list (each key is set at most
once by the SDK, so single values suffice). -/
abbrev Values := List (String × String)

/-- `url.Values.Set`: replace the value of an existing key, else add. -/
def valuesSet (v : Values) (key val : String) : Values :=
  if v.any (fun p => p.1 == key) then
    v.map (fun p => if p.1 == key then (key, val) else p)
  else v ++ [(key, val)]

/-- The keys of a `Values`. -/
def keysOf (v : Values) : List String := v.map (fun p => p.1)

/-- Byte-wise (for ASCII: character-wise) lexicographic comparison, as
used by Go's `sort.Strings` inside `url.Values.Encode`. -/
def charListLt : List Char → List Char → Bool
  | [], [] => false
  | [], _ :: _ => true
  | _ :: _, [] => false
  | a :: as, b :: bs =>
    if a.toNat < b.toNat then true
    else if b.toNat < a.toNat then false
    else charListLt as bs

def insertPair (p : String × String) : Values → Values
  | [] => [p]
  | q :: qs => if charListLt p.1.data q.1.data then p :: q :: qs else q :: insertPair p qs

/-- Sort the pairs by key (insertion sort; keys are distinct at every
call site, so stability is irrelevant). -/
def sortPairs : Values → Values
  | [] => []
  | p :: ps => insertPair p (sortPairs ps)

/-- Characters `url.QueryEscape` leaves unescaped: ASCII alphanumerics
and `-._~`. -/
def isUnreservedQueryChar (c : Char) : Bool :=
  decide (48 ≤ c.toNat ∧ c.toNat ≤ 57) || decide (65 ≤ c.toNat ∧ c.toNat ≤ 90) ||
  decide (97 ≤ c.toNat ∧ c.toNat ≤ 122) ||
  decide (c.toNat = 45) || decide (c.toNat = 46) || decide (c.toNat = 95) ||
  decide (c.toNat = 126)

def hexUpperDigit (n : Nat) : Char :=
  if n < 10 then Char.ofNat (48 + n) else Char.ofNat (55 + n)

/-- UTF-8 encoding of a character (Go strings are UTF-8 bytes). -/
def utf8Bytes (c : Char) : List Nat :=
  let n := c.toNat
  if n < 128 then [n]
  else if n < 2048 then [192 + n / 64, 128 + n % 64]
  else if n < 65536 then [224 + n / 4096, 128 + (n / 64) % 64, 128 + n % 64]
  else [240 + n / 262144, 128 + (n / 4096) % 64, 128 + (n / 64) % 64, 128 + n % 64]

/-- `url.QueryEscape` on one character: unreserved kept, space becomes
`+`, anything else percent-encoded byte-wise with uppercase hex. -/
def queryEscapeChar (c : Char) : List Char :=
  if isUnreservedQueryChar c then [c]
  else if c == ' ' then ['+']
  else (utf8Bytes c).foldr
    (fun b acc => '%' :: hexUpperDigit (b / 16) :: hexUpperDigit (b % 16) :: acc) []

/-- `url.QueryEscape`. -/
def queryEscape (s : String) : String :=
  ⟨s.data.foldr (fun c acc => queryEscapeChar c ++ acc) []⟩

/-- Join `k=v` segments with `&` (what `Values.Encode`'s buffer loop
produces). -/
def joinAmp : List String → String
  | [] => ""
  | [s] => s
  | s :: t :: rest => s ++ "&" ++ joinAmp (t :: rest)

/-- `url.Values.Encode`: keys sorted, each pair escaped as
`QueryEscape(k)=QueryEscape(v)`, joined with `&`. -/
def valuesEncode (v : Values) : String :=
  joinAmp ((sortPairs v).map (fun p => queryEscape p.1 ++ "=" ++ queryEscape p.2))

/-- Go `strconv.Itoa` (base-10 signed decimal). -/
def itoa (i : Int) : String := toString i

/-- One `if options.X != nil { params.Set(key, …) }` step of
`buildTransformQuery`. -/
def setIfSome (params : Values) (key : String) (v : Option String) : Values :=
  match v with
  | some s => valuesSet params key s
  | none => params

/-- One `if options.Flag { params.Set(key, val) }` step. -/
def setIfTrue (params : Values) (key val : String) (b : Bool) : Values :=
  if b then valuesSet params key val else params

/-- The `url.Values` built by `cdn.buildTransformQuery`
(cdn/client.go lines 514–574), sets in source order. -/
def buildTransformParams (options : Option TransformOptions) : Values :=
  match options with
  | none => []
  | some o =>
    let params : Values := []
    let params := setIfSome params "f" o.format
    let params := setIfSome params "q" (o.quality.map itoa)
    let params := setIfSome params "w" (o.width.map (fun w => itoa (getNearestWidth w)))
    let params := setIfSome params "h" (o.height.map itoa)
    let params := setIfSome params "fit" o.fit
    let params := setIfSome params "crop" o.crop
    let params := setIfSome params "crop-x" (o.cropX.map itoa)
    let params := setIfSome params "crop-y" (o.cropY.map itoa)
    let params := setIfSome params "crop-w" (o.cropWidth.map itoa)
    let params := setIfSome params "crop-h" (o.cropHeight.map itoa)
    let params := setIfSome params "blur" (o.blur.map itoa)
    let params := setIfSome params "sharpen" (o.sharpen.map itoa)
    let params := setIfSome params "brightness" (o.brightness.map itoa)
    let params := setIfSome params "saturation" (o.saturation.map itoa)
    let params := setIfTrue params "grayscale" "true" o.grayscale
    let params := setIfSome params "rotate" (o.rotate.map itoa)
    let params := setIfTrue params "flip" "y" o.flip
    let params := setIfTrue params "flop" "x" o.flop
    params

/-- `cdn.buildTransformQuery`: the built params, encoded. -/
def buildTransformQuery (options : Option TransformOptions) : String :=
  valuesEncode (buildTransformParams options)

/-- The configuration of `cdn.Client` read by `GetTransformURL`. -/
structure CdnClient where
  cdnURL : String
deriving DecidableEq, Repr

def getTransformURLConfigError : String :=
  "getTransformURL requires either a full URL or cdnURL to be configured"

def urlParseCTLError : String := "net/url: invalid control character in URL"

/-- The base-URL computation of `cdn.GetTransformURL`
(cdn/client.go lines 493–505): rebuild `scheme://host path` for full
URLs (propagating a parse error), else prepend the configured CDN base,
else fail with the configuration error. -/
def transformBaseURL (c : CdnClient) (assetURLOrS3Key : String) : Except String String :=
  if strHasPrefix assetURLOrS3Key "http://" || strHasPrefix assetURLOrS3Key "https://" then
    match urlParse assetURLOrS3Key with
    | none => .error urlParseCTLError
    | some p => .ok (p.scheme ++ "://" ++ p.host ++ p.path)
  else if c.cdnURL ≠ "" then
    .ok (strTrimSuffix c.cdnURL "/" ++ "/" ++ assetURLOrS3Key)
  else
    .error getTransformURLConfigError

/-- `cdn.GetTransformURL` (cdn/client.go lines 492–512). -/
def GetTransformURL (c : CdnClient) (assetURLOrS3Key : String)
    (options : Option TransformOptions) : Except String String :=
  match transformBaseURL c assetURLOrS3Key with
  | .error e => .error e
  | .ok baseURL =>
    let params := buildTransformQuery options
    if params = "" then .ok baseURL else .ok (baseURL ++ "?" ++ params)

/-! ## Lemmas for the transform URL builder -/

/-- Characters for which the simplified `urlParse` agrees exactly with
`net/url.Parse`: ASCII alphanumerics and `-._~/`. -/
def plainURLChar (c : Char) : Bool :=
  decide (48 ≤ c.toNat ∧ c.toNat ≤ 57) || decide (65 ≤ c.toNat ∧ c.toNat ≤ 90) ||
  decide (97 ≤ c.toNat ∧ c.toNat ≤ 122) ||
  decide (c.toNat = 45) || decide (c.toNat = 46) || decide (c.toNat = 95) ||
  decide (c.toNat = 126) || decide (c.toNat = 47)

theorem plain_not_ctl {c : Char} (h : plainURLChar c = true) :
    (decide (c.toNat < 32) || decide (c.toNat = 127)) = false := by
  simp only [plainURLChar, Bool.or_eq_true, decide_eq_true_eq] at h
  simp only [Bool.or_eq_false_iff, decide_eq_false_iff_not]
  omega

theorem plain_ne_hash {c : Char} (h : plainURLChar c = true) : (c != '#') = true := by
  rcases eq_or_ne c '#' with rfl | hne
  · exact absurd h (by decide)
  · simp [hne]

theorem plain_ne_query {c : Char} (h : plainURLChar c = true) : (c != '?') = true := by
  rcases eq_or_ne c '?' with rfl | hne
  · exact absurd h (by decide)
  · simp [hne]

theorem list_isPrefixOf_append (p l : List Char) : p.isPrefixOf (p ++ l) = true := by
  induction p with
  | nil => simp [List.isPrefixOf]
  | cons a as ih => simp [List.isPrefixOf, ih]

theorem strHasPrefix_append (p : String) (l : List Char) :
    strHasPrefix (p ++ String.mk l) p = true := by
  unfold strHasPrefix
  have : (p ++ String.mk l).data = p.data ++ l := by simp
  rw [this]
  exact list_isPrefixOf_append p.data l

theorem not_httpPrefix_of_https (rest : List Char) :
    strHasPrefix ("https://" ++ String.mk rest) "http://" = false := by
  unfold strHasPrefix
  have : ("https://" ++ String.mk rest).data =
      'h' :: 't' :: 't' :: 'p' :: 's' :: ':' :: '/' :: '/' :: rest := by simp
  rw [this]
  simp [List.isPrefixOf]

/-- On URLs whose part after the scheme uses only plain characters,
`urlParse` succeeds and the parts concatenate back to the input. -/
theorem urlParse_plain_http (rest : List Char)
    (h : ∀ ch ∈ rest, plainURLChar ch = true) :
    urlParse ("http://" ++ String.mk rest) =
      some ⟨"http", ⟨rest.takeWhile (fun c => c != '/' && c != '?')⟩,
        ⟨rest.dropWhile (fun c => c != '/' && c != '?')⟩⟩ := by
  have hdata : ("http://" ++ String.mk rest).data = "http://".data ++ rest := by simp
  have hprefrag : ("http://" ++ String.mk rest).data.takeWhile (fun c => c != '#') =
      "http://".data ++ rest := by
    rw [hdata]
    refine List.takeWhile_eq_self_iff.mpr ?_
    intro c hc
    rcases List.mem_append.mp hc with hc | hc
    · have hpfx : ∀ c ∈ "http://".data, (c != '#') = true := by decide
      exact hpfx c hc
    · exact plain_ne_hash (h c hc)
  have hctl : containsCTLByte ⟨"http://".data ++ rest⟩ = false := by
    unfold containsCTLByte
    show ("http://".data ++ rest).any _ = false
    rw [List.any_eq_false]
    intro c hc
    rcases List.mem_append.mp hc with hc | hc
    · have hpfx : ∀ c ∈ "http://".data,
          (decide (c.toNat < 32) || decide (c.toNat = 127)) = false := by decide
      simp [hpfx c hc]
    · simp [plain_not_ctl (h c hc)]
  have hpre : strHasPrefix ("http://" ++ String.mk rest) "http://" = true :=
    strHasPrefix_append _ _
  unfold urlParse
  simp only [hprefrag, hctl, hpre, Bool.false_eq_true, if_false, if_true]
  have hdrop : List.drop 7 ("http://".data ++ rest) = rest := by
    rw [show (7 : Nat) = ("http://".data).length from rfl, List.drop_left]
  rw [hdrop]
  have hnoquery : (rest.dropWhile (fun c => c != '/' && c != '?')).takeWhile
      (fun c => c != '?') = rest.dropWhile (fun c => c != '/' && c != '?') :=
    List.takeWhile_eq_self_iff.mpr (fun c hc =>
      plain_ne_query (h c ((List.dropWhile_suffix _).sublist.subset hc)))
  rw [hnoquery]

theorem urlParse_plain_https (rest : List Char)
    (h : ∀ ch ∈ rest, plainURLChar ch = true) :
    urlParse ("https://" ++ String.mk rest) =
      some ⟨"https", ⟨rest.takeWhile (fun c => c != '/' && c != '?')⟩,
        ⟨rest.dropWhile (fun c => c != '/' && c != '?')⟩⟩ := by
  have hdata : ("https://" ++ String.mk rest).data = "https://".data ++ rest := by simp
  have hprefrag : ("https://" ++ String.mk rest).data.takeWhile (fun c => c != '#') =
      "https://".data ++ rest := by
    rw [hdata]
    refine List.takeWhile_eq_self_iff.mpr ?_
    intro c hc
    rcases List.mem_append.mp hc with hc | hc
    · have hpfx : ∀ c ∈ "https://".data, (c != '#') = true := by decide
      exact hpfx c hc
    · exact plain_ne_hash (h c hc)
  have hctl : containsCTLByte ⟨"https://".data ++ rest⟩ = false := by
    unfold containsCTLByte
    show ("https://".data ++ rest).any _ = false
    rw [List.any_eq_false]
    intro c hc
    rcases List.mem_append.mp hc with hc | hc
    · have hpfx : ∀ c ∈ "https://".data,
          (decide (c.toNat < 32) || decide (c.toNat = 127)) = false := by decide
      simp [hpfx c hc]
    · simp [plain_not_ctl (h c hc)]
  have hpre : strHasPrefix ("https://" ++ String.mk rest) "https://" = true :=
    strHasPrefix_append _ _
  have hpre' : strHasPrefix ("https://" ++ String.mk rest) "http://" = false :=
    not_httpPrefix_of_https rest
  unfold urlParse
  simp only [hprefrag, hctl, hpre, hpre', Bool.false_eq_true, if_false, if_true]
  have hdrop : List.drop 8 ("https://".data ++ rest) = rest := by
    rw [show (8 : Nat) = ("https://".data).length from rfl, List.drop_left]
  rw [hdrop]
  have hnoquery : (rest.dropWhile (fun c => c != '/' && c != '?')).takeWhile
      (fun c => c != '?') = rest.dropWhile (fun c => c != '/' && c != '?') :=
    List.takeWhile_eq_self_iff.mpr (fun c hc =>
      plain_ne_query (h c ((List.dropWhile_suffix _).sublist.subset hc)))
  rw [hnoquery]

/-- `transformBaseURL` rebuilds a plain full URL unchanged. -/
theorem transformBaseURL_plain (c : CdnClient) (rest : List Char)
    (h : ∀ ch ∈ rest, plainURLChar ch = true) :
    transformBaseURL c ("http://" ++ String.mk rest) = .ok ("http://" ++ String.mk rest) ∧
    transformBaseURL c ("https://" ++ String.mk rest) = .ok ("https://" ++ String.mk rest) := by
  constructor
  · unfold transformBaseURL
    rw [strHasPrefix_append, urlParse_plain_http rest h]
    simp only [Bool.true_or, if_true]
    congr 1
    apply stringExt
    show "http".data ++ "://".data ++ _ ++ _ = "http://".data ++ rest
    rw [List.append_assoc, List.takeWhile_append_dropWhile]
    rfl
  · unfold transformBaseURL
    rw [not_httpPrefix_of_https, strHasPrefix_append, urlParse_plain_https rest h]
    simp only [Bool.false_or, if_true]
    congr 1
    apply stringExt
    show "https".data ++ "://".data ++ _ ++ _ = "https://".data ++ rest
    rw [List.append_assoc, List.takeWhile_append_dropWhile]
    rfl

theorem mem_keys_valuesSet (v : Values) (key val k' : String) :
    k' ∈ keysOf (valuesSet v key val) ↔ (k' = key ∨ k' ∈ keysOf v) := by
  unfold valuesSet keysOf
  by_cases h : v.any (fun p => p.1 == key)
  · rw [if_pos h]
    obtain ⟨p0, hp0, hp0k⟩ := List.any_eq_true.mp h
    rw [beq_iff_eq] at hp0k
    simp only [List.map_map, List.mem_map, Function.comp]
    constructor
    · rintro ⟨p, hp, hk'⟩
      by_cases hpk : p.1 = key
      · left
        rw [← hk']
        simp [hpk]
      · right
        refine ⟨p, hp, ?_⟩
        rw [← hk']
        simp [hpk]
    · rintro (rfl | ⟨p, hp, rfl⟩)
      · exact ⟨p0, hp0, by simp [hp0k]⟩
      · by_cases hpk : p.1 = key
        · exact ⟨p0, hp0, by simp [hp0k, hpk]⟩
        · exact ⟨p, hp, by simp [hpk]⟩
  · rw [if_neg h]
    simp [or_comm]

theorem mem_keys_setIfSome (v : Values) (key k' : String) (x : Option String) :
    k' ∈ keysOf (setIfSome v key x) ↔ ((k' = key ∧ x.isSome = true) ∨ k' ∈ keysOf v) := by
  cases x <;> simp [setIfSome, mem_keys_valuesSet]

theorem mem_keys_setIfTrue (v : Values) (key val k' : String) (b : Bool) :
    k' ∈ keysOf (setIfTrue v key val b) ↔ ((k' = key ∧ b = true) ∨ k' ∈ keysOf v) := by
  cases b <;> simp [setIfTrue, mem_keys_valuesSet]

theorem mem_keysOf_nil (k : String) : k ∈ keysOf ([] : Values) ↔ False := by
  simp [keysOf]

theorem isSome_map {α β : Type} (f : α → β) (x : Option α) :
    (x.map f).isSome = x.isSome := by
  cases x <;> rfl

set_option maxHeartbeats 2000000 in
/-- Which keys the built transform params contain: exactly the keys of
the options that are set (listed in the reverse of source set order). -/
theorem transformParams_keys (o : TransformOptions) (k : String) :
    k ∈ keysOf (buildTransformParams (some o)) ↔
      ((k = "flop" ∧ o.flop = true) ∨ (k = "flip" ∧ o.flip = true) ∨
       (k = "rotate" ∧ o.rotate.isSome = true) ∨ (k = "grayscale" ∧ o.grayscale = true) ∨
       (k = "saturation" ∧ o.saturation.isSome = true) ∨
       (k = "brightness" ∧ o.brightness.isSome = true) ∨
       (k = "sharpen" ∧ o.sharpen.isSome = true) ∨ (k = "blur" ∧ o.blur.isSome = true) ∨
       (k = "crop-h" ∧ o.cropHeight.isSome = true) ∨
       (k = "crop-w" ∧ o.cropWidth.isSome = true) ∨
       (k = "crop-y" ∧ o.cropY.isSome = true) ∨ (k = "crop-x" ∧ o.cropX.isSome = true) ∨
       (k = "crop" ∧ o.crop.isSome = true) ∨ (k = "fit" ∧ o.fit.isSome = true) ∨
       (k = "h" ∧ o.height.isSome = true) ∨ (k = "w" ∧ o.width.isSome = true) ∨
       (k = "q" ∧ o.quality.isSome = true) ∨ (k = "f" ∧ o.format.isSome = true)) := by
  simp only [buildTransformParams, mem_keys_setIfSome, mem_keys_setIfTrue,
    isSome_map, mem_keysOf_nil, or_false]

theorem valuesSet_ne_nil (v : Values) (key val : String) : valuesSet v key val ≠ [] := by
  unfold valuesSet
  split_ifs with h
  · intro hc
    rw [List.map_eq_nil_iff] at hc
    rw [hc] at h
    simp at h
  · simp

theorem setIfSome_ne_nil {v : Values} (key : String) (x : Option String)
    (h : v ≠ []) : setIfSome v key x ≠ [] := by
  cases x
  · exact h
  · exact valuesSet_ne_nil v key _

theorem setIfTrue_ne_nil {v : Values} (key val : String) (b : Bool)
    (h : v ≠ []) : setIfTrue v key val b ≠ [] := by
  cases b
  · exact h
  · exact valuesSet_ne_nil v key val

theorem keysOf_ne_nil {v : Values} {k : String} (h : k ∈ keysOf v) : v ≠ [] := by
  intro hc
  rw [hc] at h
  simp [keysOf] at h

/-! Sorting: `charListLt` is irreflexive, asymmetric and transitive, so
the insertion sort below yields keys in weakly increasing order. -/

theorem charListLt_irrefl : ∀ l : List Char, charListLt l l = false := by
  intro l
  induction l with
  | nil => rfl
  | cons a as ih => simp [charListLt, ih]

theorem charListLt_asymm : ∀ a b : List Char,
    charListLt a b = true → charListLt b a = false := by
  intro a
  induction a with
  | nil =>
    intro b hab
    cases b with
    | nil => simp [charListLt] at hab
    | cons x xs => rfl
  | cons x xs ih =>
    intro b hab
    cases b with
    | nil => simp [charListLt] at hab
    | cons y ys =>
      simp only [charListLt] at hab ⊢
      split_ifs at hab ⊢ with h1 h2 h3 h4 <;> try omega
      all_goals first | rfl | exact ih ys hab | simp_all

theorem charListLt_trans : ∀ a b c : List Char,
    charListLt a b = true → charListLt b c = true → charListLt a c = true := by
  intro a
  induction a with
  | nil =>
    intro b c hab hbc
    cases b with
    | nil => simp [charListLt] at hab
    | cons y ys =>
      cases c with
      | nil => simp [charListLt] at hbc
      | cons z zs => rfl
  | cons x xs ih =>
    intro b c hab hbc
    cases b with
    | nil => simp [charListLt] at hab
    | cons y ys =>
      cases c with
      | nil => simp [charListLt] at hbc
      | cons z zs =>
        simp only [charListLt] at hab hbc ⊢
        split_ifs at hab hbc ⊢ with h1 h2 h3 h4 h5 h6 <;> try omega
        all_goals first | rfl | (exfalso; omega) | (exact ih ys zs hab hbc) | simp_all
        all_goals omega

theorem mem_insertPair (p x : String × String) : ∀ l : Values,
    x ∈ insertPair p l ↔ x = p ∨ x ∈ l := by
  intro l
  induction l with
  | nil => simp [insertPair]
  | cons q qs ih =>
    unfold insertPair
    split_ifs with h
    · simp
    · simp only [List.mem_cons, ih]
      tauto

/-- The key order used in sortedness statements: the later key is not
smaller than the earlier one. -/
def keyLe (p q : String × String) : Prop := charListLt q.1.data p.1.data = false

theorem insertPair_sorted (p : String × String) (l : Values)
    (h : List.Pairwise keyLe l) : List.Pairwise keyLe (insertPair p l) := by
  induction l with
  | nil => simp [insertPair, List.pairwise_cons]
  | cons q qs ih =>
    rcases List.pairwise_cons.mp h with ⟨hq, hqs⟩
    unfold insertPair
    split_ifs with hlt
    · refine List.pairwise_cons.mpr ⟨?_, h⟩
      intro x hx
      rcases List.mem_cons.mp hx with rfl | hx
      · exact charListLt_asymm _ _ hlt
      · -- x ∈ qs: q ≤ x and p < q, so ¬(x < p)
        unfold keyLe
        by_contra hc
        rw [Bool.not_eq_false] at hc
        have := charListLt_trans _ _ _ hc hlt
        rw [hq x hx] at this
        cases this
    · refine List.pairwise_cons.mpr ⟨?_, ih hqs⟩
      intro x hx
      rcases (mem_insertPair p x qs).mp hx with rfl | hx
      · rw [Bool.not_eq_true] at hlt
        exact hlt
      · exact hq x hx

theorem sortPairs_sorted (v : Values) : List.Pairwise keyLe (sortPairs v) := by
  induction v with
  | nil => simp [sortPairs]
  | cons p ps ih => exact insertPair_sorted p (sortPairs ps) ih

theorem insertPair_perm (p : String × String) (l : Values) :
    (insertPair p l).Perm (p :: l) := by
  induction l with
  | nil => simp [insertPair]
  | cons q qs ih =>
    unfold insertPair
    split_ifs with h
    · exact List.Perm.refl _
    · exact (List.Perm.cons q ih).trans (List.Perm.swap p q qs)

theorem sortPairs_perm (v : Values) : (sortPairs v).Perm v := by
  induction v with
  | nil => simp [sortPairs]
  | cons p ps ih => exact (insertPair_perm p (sortPairs ps)).trans (List.Perm.cons p ih)

theorem joinAmp_ne_empty (s : String) (rest : List String) (hs : s.data ≠ []) :
    joinAmp (s :: rest) ≠ "" := by
  cases rest with
  | nil =>
    intro hc
    exact hs (congrArg String.data hc)
  | cons t ts =>
    intro hc
    have := congrArg String.data hc
    simp only [joinAmp] at this
    simp [String.data_append] at this

theorem valuesEncode_ne_empty {v : Values} (h : v ≠ []) : valuesEncode v ≠ "" := by
  unfold valuesEncode
  have hlen : sortPairs v ≠ [] := by
    intro hc
    have hl := (sortPairs_perm v).length_eq
    rw [hc] at hl
    exact h (List.length_eq_zero.mp hl.symm)
  cases hs : sortPairs v with
  | nil => exact absurd hs hlen
  | cons p ps =>
    simp only [List.map_cons]
    apply joinAmp_ne_empty
    simp [String.data_append]

/-- "No transform option is set": all optional fields `nil`, all flags
`false`. -/
def noTransformOptionSet (o : TransformOptions) : Prop :=
  o.width = none ∧ o.height = none ∧ o.fit = none ∧ o.format = none ∧ o.quality = none ∧
  o.crop = none ∧ o.cropX = none ∧ o.cropY = none ∧ o.cropWidth = none ∧
  o.cropHeight = none ∧ o.blur = none ∧ o.sharpen = none ∧ o.brightness = none ∧
  o.saturation = none ∧ o.grayscale = false ∧ o.rotate = none ∧ o.flip = false ∧
  o.flop = false

/-- "At least one transform option is set". -/
def anyTransformOptionSet (o : TransformOptions) : Prop :=
  o.width.isSome = true ∨ o.height.isSome = true ∨ o.fit.isSome = true ∨
  o.format.isSome = true ∨ o.quality.isSome = true ∨ o.crop.isSome = true ∨
  o.cropX.isSome = true ∨ o.cropY.isSome = true ∨ o.cropWidth.isSome = true ∨
  o.cropHeight.isSome = true ∨ o.blur.isSome = true ∨ o.sharpen.isSome = true ∨
  o.brightness.isSome = true ∨ o.saturation.isSome = true ∨ o.grayscale = true ∨
  o.rotate.isSome = true ∨ o.flip = true ∨ o.flop = true

theorem buildTransformQuery_noneSet (o : TransformOptions)
    (h : noTransformOptionSet o) : buildTransformQuery (some o) = "" := by
  obtain ⟨h1, h2, h3, h4, h5, h6, h7, h8, h9, h10, h11, h12, h13, h14, h15, h16, h17, h18⟩ := h
  simp only [buildTransformQuery, buildTransformParams, h1, h2, h3, h4, h5, h6, h7, h8,
    h9, h10, h11, h12, h13, h14, h15, h16, h17, h18, Option.map_none', setIfSome,
    setIfTrue, if_false, Bool.false_eq_true]
  rfl

theorem transformParams_ne_nil (o : TransformOptions)
    (h : anyTransformOptionSet o) : buildTransformParams (some o) ≠ [] := by
  rcases h with h | h | h | h | h | h | h | h | h | h | h | h | h | h | h | h | h | h
  · exact keysOf_ne_nil ((transformParams_keys o "w").mpr (by simp [h]))
  · exact keysOf_ne_nil ((transformParams_keys o "h").mpr (by simp [h]))
  · exact keysOf_ne_nil ((transformParams_keys o "fit").mpr (by simp [h]))
  · exact keysOf_ne_nil ((transformParams_keys o "f").mpr (by simp [h]))
  · exact keysOf_ne_nil ((transformParams_keys o "q").mpr (by simp [h]))
  · exact keysOf_ne_nil ((transformParams_keys o "crop").mpr (by simp [h]))
  · exact keysOf_ne_nil ((transformParams_keys o "crop-x").mpr (by simp [h]))
  · exact keysOf_ne_nil ((transformParams_keys o "crop-y").mpr (by simp [h]))
  · exact keysOf_ne_nil ((transformParams_keys o "crop-w").mpr (by simp [h]))
  · exact keysOf_ne_nil ((transformParams_keys o "crop-h").mpr (by simp [h]))
  · exact keysOf_ne_nil ((transformParams_keys o "blur").mpr (by simp [h]))
  · exact keysOf_ne_nil ((transformParams_keys o "sharpen").mpr (by simp [h]))
  · exact keysOf_ne_nil ((transformParams_keys o "brightness").mpr (by simp [h]))
  · exact keysOf_ne_nil ((transformParams_keys o "saturation").mpr (by simp [h]))
  · exact keysOf_ne_nil ((transformParams_keys o "grayscale").mpr (by simp [h]))
  · exact keysOf_ne_nil ((transformParams_keys o "rotate").mpr (by simp [h]))
  · exact keysOf_ne_nil ((transformParams_keys o "flip").mpr (by simp [h]))
  · exact keysOf_ne_nil ((transformParams_keys o "flop").mpr (by simp [h]))

theorem getTransformURL_no_query (c : CdnClient) (a : String)
    (opts : Option TransformOptions) (h : buildTransformQuery opts = "") :
    GetTransformURL c a opts = transformBaseURL c a := by
  unfold GetTransformURL
  cases hb : transformBaseURL c a
  · rfl
  · simp [h]

theorem getTransformURL_with_query (c : CdnClient) (a : String)
    (opts : Option TransformOptions) (b : String) (hb : transformBaseURL c a = .ok b)
    (h : buildTransformQuery opts ≠ "") :
    GetTransformURL c a opts = .ok (b ++ "?" ++ buildTransformQuery opts) := by
  unfold GetTransformURL
  rw [hb]
  simp [h]

theorem getTransformURL_error_iff (c : CdnClient) (a : String)
    (opts : Option TransformOptions) (e : String) :
    GetTransformURL c a opts = .error e ↔ transformBaseURL c a = .error e := by
  unfold GetTransformURL
  cases hb : transformBaseURL c a
  · simp
  · by_cases h : buildTransformQuery opts = "" <;> simp [h]

theorem transformBaseURL_configError_iff (c : CdnClient) (a : String) :
    transformBaseURL c a = .error getTransformURLConfigError ↔
      (isFullURL a = false ∧ c.cdnURL = "") := by
  unfold transformBaseURL isFullURL
  by_cases h1 : (strHasPrefix a "http://" || strHasPrefix a "https://") = true
  · rw [if_pos h1]
    constructor
    · intro h
      cases hp : urlParse a with
      | none =>
        rw [hp] at h
        have := Except.error.inj h
        exact absurd this (by decide)
      | some p =>
        rw [hp] at h
        cases h
    · rintro ⟨hfull, _⟩
      rw [h1] at hfull
      cases hfull
  · rw [if_neg h1]
    rw [Bool.not_eq_true] at h1
    by_cases h2 : c.cdnURL = ""
    · rw [if_neg (by simp [h2])]
      simp [h1, h2]
    · rw [if_pos h2]
      simp [h1, h2]

theorem transformBaseURL_ok_of_cdn (c : CdnClient) (a : String)
    (hf : isFullURL a = false) (hc : c.cdnURL ≠ "") :
    transformBaseURL c a = .ok (strTrimSuffix c.cdnURL "/" ++ "/" ++ a) := by
  unfold transformBaseURL
  unfold isFullURL at hf
  rw [if_neg (by simp [hf]), if_pos hc]

theorem getTransformURL_ok_of_base (c : CdnClient) (a : String)
    (opts : Option TransformOptions) (b : String)
    (hb : transformBaseURL c a = .ok b) : ∃ s, GetTransformURL c a opts = .ok s := by
  unfold GetTransformURL
  rw [hb]
  by_cases h : buildTransformQuery opts = "" <;> simp [h]

set_option maxRecDepth 100000 in
/-- The claim's "for every full-URL asset reference it returns that input
URL unchanged" fails on the code: `url.Parse` splits off the query string
and `GetTransformURL` rebuilds only `scheme://host path`, so a full URL
carrying a query string comes back without it. -/
theorem claim_C6_counterexample :
    GetTransformURL ⟨""⟩ "https://example.com/img.png?v=2" none =
      .ok "https://example.com/img.png" ∧
    ("https://example.com/img.png" : String) ≠ "https://example.com/img.png?v=2" := by
  exact ⟨rfl, by decide⟩

/-- **C6 (amended).** With no transform option set (options `nil` or all
fields unset), `GetTransformURL` returns the computed base URL unchanged —
for a full-URL asset made of plain characters (no query, fragment,
percent-escape or userinfo) that base equals the input URL, while a query
string or fragment in the input is stripped (see the counterexample).
With at least one option set it returns the base URL, `?`, and a
deterministic query string that contains exactly the keys of the set
options, in sorted key order. -/
theorem claim_C6 :
    (∀ (c : CdnClient) (a : String), GetTransformURL c a none = transformBaseURL c a) ∧
    (∀ (c : CdnClient) (a : String) (o : TransformOptions), noTransformOptionSet o →
      GetTransformURL c a (some o) = transformBaseURL c a) ∧
    (∀ (c : CdnClient) (rest : List Char), (∀ ch ∈ rest, plainURLChar ch = true) →
      GetTransformURL c ("http://" ++ String.mk rest) none =
        .ok ("http://" ++ String.mk rest) ∧
      GetTransformURL c ("https://" ++ String.mk rest) none =
        .ok ("https://" ++ String.mk rest)) ∧
    (∀ (c : CdnClient) (a : String) (o : TransformOptions) (b : String),
      anyTransformOptionSet o → transformBaseURL c a = .ok b →
      buildTransformQuery (some o) ≠ "" ∧
      GetTransformURL c a (some o) = .ok (b ++ "?" ++ buildTransformQuery (some o))) ∧
    (∀ (o : TransformOptions) (k : String),
      k ∈ keysOf (buildTransformParams (some o)) ↔
      ((k = "flop" ∧ o.flop = true) ∨ (k = "flip" ∧ o.flip = true) ∨
       (k = "rotate" ∧ o.rotate.isSome = true) ∨ (k = "grayscale" ∧ o.grayscale = true) ∨
       (k = "saturation" ∧ o.saturation.isSome = true) ∨
       (k = "brightness" ∧ o.brightness.isSome = true) ∨
       (k = "sharpen" ∧ o.sharpen.isSome = true) ∨ (k = "blur" ∧ o.blur.isSome = true) ∨
       (k = "crop-h" ∧ o.cropHeight.isSome = true) ∨
       (k = "crop-w" ∧ o.cropWidth.isSome = true) ∨
       (k = "crop-y" ∧ o.cropY.isSome = true) ∨ (k = "crop-x" ∧ o.cropX.isSome = true) ∨
       (k = "crop" ∧ o.crop.isSome = true) ∨ (k = "fit" ∧ o.fit.isSome = true) ∨
       (k = "h" ∧ o.height.isSome = true) ∨ (k = "w" ∧ o.width.isSome = true) ∨
       (k = "q" ∧ o.quality.isSome = true) ∨ (k = "f" ∧ o.format.isSome = true))) ∧
    (∀ opts : Option TransformOptions,
      List.Pairwise keyLe (sortPairs (buildTransformParams opts)) ∧
      (sortPairs (buildTransformParams opts)).Perm (buildTransformParams opts)) := by
  refine ⟨fun c a => getTransformURL_no_query c a none rfl,
    fun c a o h => getTransformURL_no_query c a (some o) (buildTransformQuery_noneSet o h),
    ?_, ?_, transformParams_keys,
    fun opts => ⟨sortPairs_sorted _, sortPairs_perm _⟩⟩
  · intro c rest h
    obtain ⟨hb1, hb2⟩ := transformBaseURL_plain c rest h
    exact ⟨(getTransformURL_no_query c _ none rfl).trans hb1,
      (getTransformURL_no_query c _ none rfl).trans hb2⟩
  · intro c a o b hany hb
    have hq : buildTransformQuery (some o) ≠ "" :=
      valuesEncode_ne_empty (transformParams_ne_nil o hany)
    exact ⟨hq, getTransformURL_with_query c a (some o) b hb hq⟩

set_option maxRecDepth 100000 in
theorem claim_C6_witness :
    noTransformOptionSet {} ∧
    GetTransformURL ⟨"https://cdn.example.com"⟩ "uploads/img.jpg" (some {}) =
      transformBaseURL ⟨"https://cdn.example.com"⟩ "uploads/img.jpg" ∧
    (∀ ch ∈ "cdn.example.com/img.png".data, plainURLChar ch = true) ∧
    GetTransformURL ⟨""⟩ ("https://" ++ String.mk "cdn.example.com/img.png".data) none =
      .ok ("https://" ++ String.mk "cdn.example.com/img.png".data) ∧
    anyTransformOptionSet ({ width := some 640 } : TransformOptions) ∧
    transformBaseURL ⟨""⟩ "https://cdn.example.com/image.jpg" =
      .ok "https://cdn.example.com/image.jpg" ∧
    GetTransformURL ⟨""⟩ "https://cdn.example.com/image.jpg"
        (some { width := some 640 }) =
      .ok ("https://cdn.example.com/image.jpg" ++ "?" ++
        buildTransformQuery (some { width := some 640 })) := by
  have hnone : noTransformOptionSet {} :=
    ⟨rfl, rfl, rfl, rfl, rfl, rfl, rfl, rfl, rfl, rfl, rfl, rfl, rfl, rfl, rfl, rfl, rfl, rfl⟩
  have hany : anyTransformOptionSet ({ width := some 640 } : TransformOptions) := Or.inl rfl
  refine ⟨hnone, claim_C6.2.1 _ _ {} hnone, by decide,
    (claim_C6.2.2.1 ⟨""⟩ "cdn.example.com/img.png".data (by decide)).2, hany, rfl, ?_⟩
  exact (claim_C6.2.2.2.1 ⟨""⟩ "https://cdn.example.com/image.jpg"
    { width := some 640 } "https://cdn.example.com/image.jpg" hany rfl).2

set_option maxRecDepth 100000 in
/-- The claim's "for every other input the builder succeeds" fails on the
code: a full URL containing an ASCII control character is rejected by
`url.Parse` and `GetTransformURL` propagates the parse error, even though
the reference is a full URL (and a CDN base is configured). -/
theorem claim_C7_counterexample :
    isFullURL "http://e\x01x.com" = true ∧
    GetTransformURL ⟨"https://cdn.example.com"⟩ "http://e\x01x.com" none =
      .error urlParseCTLError ∧
    urlParseCTLError ≠ getTransformURLConfigError := by
  exact ⟨rfl, rfl, by decide⟩

set_option maxRecDepth 100000 in
/-- **C7 (amended).** `GetTransformURL` returns the configuration error
exactly when the asset reference is not a full URL and no CDN base URL is
configured, and only then; a non-full-URL asset with a CDN base
configured always succeeds, and a full URL whose part after the scheme is
made of plain URL characters always succeeds.  But the configuration
error is not the only failure of the builder: a full URL rejected by
`url.Parse` — such as one carrying an ASCII control character before any
fragment — fails with the propagated parse error even when a CDN base is
configured, refuting "for every other input the builder succeeds" (see
the counterexample). -/
theorem claim_C7 :
    (∀ (c : CdnClient) (a : String) (opts : Option TransformOptions),
      GetTransformURL c a opts = .error getTransformURLConfigError ↔
        (isFullURL a = false ∧ c.cdnURL = "")) ∧
    (∀ (c : CdnClient) (a : String) (opts : Option TransformOptions),
      isFullURL a = false → c.cdnURL ≠ "" →
      ∃ s, GetTransformURL c a opts = .ok s) ∧
    (∀ (c : CdnClient) (rest : List Char) (opts : Option TransformOptions),
      (∀ ch ∈ rest, plainURLChar ch = true) →
      (∃ s, GetTransformURL c ("http://" ++ String.mk rest) opts = .ok s) ∧
      (∃ s, GetTransformURL c ("https://" ++ String.mk rest) opts = .ok s)) ∧
    (∀ (c : CdnClient) (opts : Option TransformOptions),
      GetTransformURL c "http://e\x01x.com" opts = .error urlParseCTLError) := by
  refine ⟨?_, ?_, ?_, ?_⟩
  · intro c a opts
    rw [getTransformURL_error_iff]
    exact transformBaseURL_configError_iff c a
  · intro c a opts hf hc
    exact getTransformURL_ok_of_base c a opts _ (transformBaseURL_ok_of_cdn c a hf hc)
  · intro c rest opts h
    obtain ⟨hb1, hb2⟩ := transformBaseURL_plain c rest h
    exact ⟨getTransformURL_ok_of_base c _ opts _ hb1,
      getTransformURL_ok_of_base c _ opts _ hb2⟩
  · intro c opts
    rw [getTransformURL_error_iff]
    rfl

set_option maxRecDepth 100000 in
theorem claim_C7_witness :
    isFullURL "uploads/img.jpg" = false ∧
    GetTransformURL ⟨""⟩ "uploads/img.jpg" none = .error getTransformURLConfigError ∧
    (∃ s, GetTransformURL ⟨"https://cdn.example.com"⟩ "uploads/img.jpg" none = .ok s) ∧
    (∀ ch ∈ "example.com/a".data, plainURLChar ch = true) ∧
    (∃ s, GetTransformURL ⟨""⟩ ("https://" ++ String.mk "example.com/a".data) none =
      .ok s) := by
  refine ⟨by decide, (claim_C7.1 ⟨""⟩ "uploads/img.jpg" none).mpr ⟨by decide, rfl⟩,
    claim_C7.2.1 ⟨"https://cdn.example.com"⟩ "uploads/img.jpg" none (by decide)
      (by decide), by decide,
    (claim_C7.2.2.1 ⟨""⟩ "example.com/a".data none (by decide)).2⟩

/-! ## The `List` query builders (extraction/client.go `List`,
screenshots/types.go `List`) -/

/-- `extraction.ListExtractionsRequest` (all fields optional). -/
structure ListExtractionsRequest where
  environment : Option String := none
  projectID : Option String := none
  status : Option String := none
  url : Option String := none
  limit : Option Int := none
  cursor : Option String := none
deriving DecidableEq, Repr

/-- `screenshots.ListScreenshotsRequest` (all fields optional). -/
structure ListScreenshotsRequest where
  environment : Option String := none
  projectID : Option String := none
  status : Option String := none
  url : Option String := none
  limit : Option Int := none
  cursor : Option String := none
deriving DecidableEq, Repr

/-- The query params built by extraction `List`
(extraction/client.go lines 57–77), sets in source order. -/
def extractionListParams (req : Option ListExtractionsRequest) : Values :=
  match req with
  | none => []
  | some r =>
    let params : Values := []
    let params := setIfSome params "environment" r.environment
    let params := setIfSome params "projectId" r.projectID
    let params := setIfSome params "status" r.status
    let params := setIfSome params "url" r.url
    let params := setIfSome params "limit" (r.limit.map itoa)
    let params := setIfSome params "cursor" r.cursor
    params

/-- The request path built by extraction `List`
(extraction/client.go lines 79–82). -/
def extractionListPath (req : Option ListExtractionsRequest) : String :=
  let params := extractionListParams req
  if params.length > 0 then "/webdata/extractions" ++ "?" ++ valuesEncode params
  else "/webdata/extractions"

/-- The query params built by screenshots `List`
(screenshots/types.go lines 385–405). -/
def screenshotsListParams (req : Option ListScreenshotsRequest) : Values :=
  match req with
  | none => []
  | some r =>
    let params : Values := []
    let params := setIfSome params "environment" r.environment
    let params := setIfSome params "projectId" r.projectID
    let params := setIfSome params "status" r.status
    let params := setIfSome params "url" r.url
    let params := setIfSome params "limit" (r.limit.map itoa)
    let params := setIfSome params "cursor" r.cursor
    params

/-- The request path built by screenshots `List`
(screenshots/types.go lines 407–410). -/
def screenshotsListPath (req : Option ListScreenshotsRequest) : String :=
  let params := screenshotsListParams req
  if params.length > 0 then "/webdata/screenshots" ++ "?" ++ valuesEncode params
  else "/webdata/screenshots"

/-- **C8.** A `List` request with every optional filter unset (nil request
or all-nil fields) produces the bare collection path, with no query string
at all; and a query parameter key is present exactly when the
corresponding optional field is set, so an unset field is never serialized
(as null, empty or otherwise). -/
theorem claim_C8 :
    extractionListPath none = "/webdata/extractions" ∧
    extractionListPath (some {}) = "/webdata/extractions" ∧
    screenshotsListPath none = "/webdata/screenshots" ∧
    screenshotsListPath (some {}) = "/webdata/screenshots" ∧
    (∀ (r : ListExtractionsRequest) (k : String),
      k ∈ keysOf (extractionListParams (some r)) ↔
        ((k = "cursor" ∧ r.cursor.isSome = true) ∨ (k = "limit" ∧ r.limit.isSome = true) ∨
         (k = "url" ∧ r.url.isSome = true) ∨ (k = "status" ∧ r.status.isSome = true) ∨
         (k = "projectId" ∧ r.projectID.isSome = true) ∨
         (k = "environment" ∧ r.environment.isSome = true))) ∧
    (∀ (r : ListScreenshotsRequest) (k : String),
      k ∈ keysOf (screenshotsListParams (some r)) ↔
        ((k = "cursor" ∧ r.cursor.isSome = true) ∨ (k = "limit" ∧ r.limit.isSome = true) ∨
         (k = "url" ∧ r.url.isSome = true) ∨ (k = "status" ∧ r.status.isSome = true) ∨
         (k = "projectId" ∧ r.projectID.isSome = true) ∨
         (k = "environment" ∧ r.environment.isSome = true))) := by
  refine ⟨rfl, rfl, rfl, rfl, ?_, ?_⟩
  · intro r k
    simp only [extractionListParams, mem_keys_setIfSome, isSome_map, mem_keysOf_nil,
      or_false]
  · intro r k
    simp only [screenshotsListParams, mem_keys_setIfSome, isSome_map, mem_keysOf_nil,
      or_false]

theorem claim_C8_witness :
    ("status" ∈ keysOf (extractionListParams (some { status := some "completed" })) ↔
      (("status" : String) = "cursor" ∧ False) ∨ (("status" : String) = "limit" ∧ False) ∨
      (("status" : String) = "url" ∧ False) ∨ (("status" : String) = "status" ∧ True) ∨
      (("status" : String) = "projectId" ∧ False) ∨
      (("status" : String) = "environment" ∧ False)) ∧
    ¬ "limit" ∈ keysOf (extractionListParams (some { status := some "completed" })) := by
  constructor
  · simpa using claim_C8.2.2.2.2.1 { status := some "completed" } "status"
  · intro hc
    have := (claim_C8.2.2.2.2.1 { status := some "completed" } "limit").mp hc
    simp at this

/-! ## Package `client`: `doRequest` error mapping (client/http.go)

The response-side handling of `doRequest` (lines 66–79): any status
≥ 400 is turned into a `*types.APIError` carrying the status code and the
`{message, code}` parsed from the JSON body; if the body does not
unmarshal, the raw body becomes the message.  `decodeErrorResponse` below
models `json.Unmarshal` into `types.ErrorResponse` for flat JSON objects
with string fields (the error wire format); other JSON shapes are treated
as unmarshal failures. -/

def skipWS : List Char → List Char
  | [] => []
  | c :: cs => if c = ' ' ∨ c = '\t' ∨ c = '\n' ∨ c = '\r' then skipWS cs else c :: cs

/-- Parse a JSON string body after the opening quote; returns the decoded
content and the rest after the closing quote.  Handles the escapes
`\" \\ \/ \n \t \r`. -/
def parseJSONString : List Char → Option (List Char × List Char)
  | [] => none
  | c :: cs =>
    if c = '"' then some ([], cs)
    else if c = '\\' then
      match cs with
      | [] => none
      | e :: cs' =>
        let dec : Option Char :=
          if e = '"' then some '"'
          else if e = '\\' then some '\\'
          else if e = '/' then some '/'
          else if e = 'n' then some '\n'
          else if e = 't' then some '\t'
          else if e = 'r' then some '\r'
          else none
        match dec with
        | none => none
        | some d =>
          match parseJSONString cs' with
          | none => none
          | some (content, rest) => some (d :: content, rest)
    else
      match parseJSONString cs with
      | none => none
      | some (content, rest) => some (c :: content, rest)

/-- Parse the members of a flat JSON object of string fields, positioned
after `{` (or after a `,`); returns the pairs and the rest after `}`. -/
def parseMembers : Nat → List Char → Option (List (String × String) × List Char)
  | 0, _ => none
  | fuel + 1, s =>
    match skipWS s with
    | '"' :: rest =>
      match parseJSONString rest with
      | none => none
      | some (key, rest1) =>
        match skipWS rest1 with
        | ':' :: rest3 =>
          match skipWS rest3 with
          | '"' :: rest5 =>
            match parseJSONString rest5 with
            | none => none
            | some (val, rest6) =>
              match skipWS rest6 with
              | ',' :: rest8 =>
                match parseMembers fuel rest8 with
                | none => none
                | some (pairs, rest9) => some ((⟨key⟩, ⟨val⟩) :: pairs, rest9)
              | '}' :: rest8 => some ([(⟨key⟩, ⟨val⟩)], rest8)
              | _ => none
          | _ => none
        | _ => none
    | _ => none

def parseFlatStringObject (s : String) : Option (List (String × String)) :=
  match skipWS s.data with
  | '{' :: rest =>
    match skipWS rest with
    | '}' :: rest2 => if (skipWS rest2).isEmpty then some [] else none
    | _ =>
      match parseMembers (s.data.length + 1) rest with
      | none => none
      | some (pairs, rest2) => if (skipWS rest2).isEmpty then some pairs else none
  | _ => none

def lookupField (pairs : List (String × String)) (k : String) : Option String :=
  (pairs.find? (fun p => p.1 == k)).map (fun p => p.2)

/-- `json.Unmarshal(respBody, &errResp)` for the error wire format: a
missing field keeps its zero value `""`. -/
def decodeErrorResponse (body : String) : Option ErrorResponse :=
  match parseFlatStringObject body with
  | none => none
  | some pairs =>
    some ⟨(lookupField pairs "message").getD "", (lookupField pairs "code").getD ""⟩

/-- The response handling of `client.doRequest`
(client/http.go lines 66–79). -/
def handleResponse (statusCode : Nat) (respBody : String) : Except APIError String :=
  if statusCode ≥ 400 then
    let errResp : ErrorResponse :=
      match decodeErrorResponse respBody with
      | some e => e
      | none => ⟨respBody, ""⟩
    .error ⟨statusCode, errResp.code, errResp.message, errResp⟩
  else .ok respBody

set_option maxRecDepth 100000 in
/-- **C9.** Every response with status ≥ 400 becomes an `APIError` whose
`StatusCode` is the response status and whose `Code`/`Message` come from
the JSON error body (the raw body becoming the message when it does not
unmarshal); statuses < 400 succeed; and the 400 response with body
`{"message":"Invalid request","code":"INVALID_REQUEST"}` yields exactly
`APIError{400, "INVALID_REQUEST", "Invalid request"}`. -/
theorem claim_C9 :
    (∀ (sc : Nat) (body : String), 400 ≤ sc →
      ∃ e, handleResponse sc body = .error e ∧ e.statusCode = sc ∧
        (∀ er, decodeErrorResponse body = some er →
          e.code = er.code ∧ e.message = er.message ∧ e.response = er) ∧
        (decodeErrorResponse body = none → e.message = body ∧ e.code = "")) ∧
    (∀ (sc : Nat) (body : String), sc < 400 → handleResponse sc body = .ok body) ∧
    handleResponse 400 "\x7b\"message\":\"Invalid request\",\"code\":\"INVALID_REQUEST\"\x7d" =
      .error ⟨400, "INVALID_REQUEST", "Invalid request",
        ⟨"Invalid request", "INVALID_REQUEST"⟩⟩ := by
  refine ⟨?_, ?_, by rfl⟩
  · intro sc body hsc
    unfold handleResponse
    rw [if_pos hsc]
    cases hd : decodeErrorResponse body with
    | none =>
      refine ⟨_, rfl, rfl, ?_, fun _ => ⟨rfl, rfl⟩⟩
      intro er her
      exact Option.noConfusion her
    | some er0 =>
      refine ⟨_, rfl, rfl, ?_, ?_⟩
      · intro er her
        obtain rfl := Option.some.inj her
        exact ⟨rfl, rfl, rfl⟩
      · intro hn
        exact Option.noConfusion hn
  · intro sc body hsc
    unfold handleResponse
    rw [if_neg (by omega)]

set_option maxRecDepth 100000 in
theorem claim_C9_witness :
    (400 ≤ 500 ∧
      ∃ e, handleResponse 500 "oops" = .error e ∧ e.statusCode = 500 ∧
        (∀ er, decodeErrorResponse "oops" = some er →
          e.code = er.code ∧ e.message = er.message ∧ e.response = er) ∧
        (decodeErrorResponse "oops" = none → e.message = "oops" ∧ e.code = "")) ∧
    handleResponse 200 "\x7b\"ok\":true\x7d" = .ok "\x7b\"ok\":true\x7d" := by
  exact ⟨⟨by omega, claim_C9.1 500 "oops" (by omega)⟩,
    claim_C9.2.1 200 "\x7b\"ok\":true\x7d" (by omega)⟩

theorem claim_C10_witness :
    extractWaitPollInterval (some ⟨0, -5⟩) = 1 * timeSecond ∧
    extractWaitTimeout (some ⟨0, -5⟩) = 60 * timeSecond ∧
    ExtractAndWait (.ok extStart) (fun _ => .ok extProcessing) (fun _ => false)
        (some ⟨0, -5⟩) =
      ExtractAndWait (.ok extStart) (fun _ => .ok extProcessing) (fun _ => false) none := by
  refine ⟨(claim_C10.2.1 ⟨0, -5⟩ (by norm_num)).1, ?_, ?_⟩
  · exact (claim_C10.2.2.1 ⟨0, -5⟩ (by norm_num)).1
  · exact claim_C10.2.2.2.2.2.2.2.1 _ _ _ ⟨0, -5⟩ (by norm_num) (by norm_num)

end Stack0
